import Mathlib

/-!
Verification of the gtml macro processor (src/gtml.py, version 3.6.1, Python port).

The program is embedded shallowly: Python strings become `List Char`, the
process-wide globals become one explicit state record `G`, external effects
(file system, clock, `eval`, `subprocess`) become oracle functions in `Env`,
and the two unbounded loops of the source (`Substitute`'s delimiter scan and
`Markup`'s argument-replacement loop) are driven by explicit fuel so that
non-termination of the source is observable as fuel-independent `timeout`.
Every definition is transcribed from the corresponding Python function and
keeps its name.
-/

set_option autoImplicit false
set_option linter.unusedVariables false

namespace Gtml

/-- Python strings are modelled as lists of characters. -/
abbrev Str := List Char

/-- Shorthand turning a Lean string literal into the model's character list. -/
def str (s : String) : Str := s.data

/-- The double-quote character. -/
def dquote : Char := Char.ofNat 34

/-- The single-quote character. -/
def squote : Char := Char.ofNat 39

/-- The backslash character. -/
def bslash : Char := Char.ofNat 92

/-- The internal sentinel gtml stores for an explicitly empty macro value. -/
def BLANK : Str := str "(((BLANK)))"

/-- Leftmost-occurrence scan underlying Python `str.find`: the index (offset by
`i`) of the first position of `s` at which `sub` is a prefix. -/
def sfindAux (sub : Str) : Str → Nat → Option Nat
  | [], i => if sub.isPrefixOf ([] : Str) then some i else none
  | c :: t, i => if sub.isPrefixOf (c :: t) then some i else sfindAux sub t (i + 1)

/-- Python `s.find(sub)`: index of the leftmost occurrence, `-1` when absent. -/
def sfind (s sub : Str) : Int :=
  match sfindAux sub s 0 with
  | some i => (i : Int)
  | none => -1

/-- `sub` occurs somewhere in `s` (Python `sub in s`, or `re.search` on a
pattern that is just a literal). -/
def containsSub (s sub : Str) : Bool :=
  (sfindAux sub s 0).isSome

/-- Downward scan from index `k` for the rightmost occurrence of `sub` lying
entirely inside `s[0:hi]`. -/
def srfindDown (s sub : Str) (hi : Nat) : Nat → Option Nat
  | 0 => if sub.length ≤ hi ∧ sub.isPrefixOf s then some 0 else none
  | k + 1 =>
    if k + 1 + sub.length ≤ hi ∧ sub.isPrefixOf (s.drop (k + 1)) then some (k + 1)
    else srfindDown s sub hi k

/-- Python `s.rfind(sub, 0, hi)` for a non-negative bound: rightmost occurrence
contained in `s[0:hi]`, `-1` when absent. -/
def srfindIn (s sub : Str) (hi : Nat) : Int :=
  match srfindDown s sub hi s.length with
  | some i => (i : Int)
  | none => -1

/-- Python `s.rfind(sub)`: rightmost occurrence, `-1` when absent. -/
def srfind (s sub : Str) : Int := srfindIn s sub s.length

/-- Normalize one Python slice bound against a string of length `len`. -/
def pyIdx (len : Nat) (x : Int) : Nat :=
  let x' : Int := if x < 0 then x + len else x
  if x' < 0 then 0 else min x'.toNat len

/-- Python `s[a:b]` (step 1), with negative-index and clamping semantics. -/
def pySlice (s : Str) (a b : Int) : Str :=
  let lo := pyIdx s.length a
  let hi := pyIdx s.length b
  (s.drop lo).take (hi - lo)

/-- Scan of `replaceFirst` for a non-empty pattern `p :: ps`. -/
def replaceFirstAux (p : Char) (ps rep : Str) : Str → Str
  | [] => []
  | c :: t =>
    if (p :: ps).isPrefixOf (c :: t) then rep ++ t.drop ps.length
    else c :: replaceFirstAux p ps rep t

/-- Python `s.replace(pat, rep, 1)`: replace the leftmost occurrence only. An
empty pattern matches at position 0, so `rep` is prepended to `s`. -/
def replaceFirst (s pat rep : Str) : Str :=
  match pat with
  | [] => rep ++ s
  | p :: ps => replaceFirstAux p ps rep s

/-- Scan of `replaceAll` for a non-empty pattern `p :: ps`.  The fuel is the
length of the scanned string — every step consumes at least one character, so
it always suffices; it only makes the recursion structural. -/
def replaceAllAux (p : Char) (ps rep : Str) : Nat → Str → Str
  | _, [] => []
  | 0, s => s
  | fuel + 1, c :: t =>
    if (p :: ps).isPrefixOf (c :: t) then rep ++ replaceAllAux p ps rep fuel (t.drop ps.length)
    else c :: replaceAllAux p ps rep fuel t

/-- Python `s.replace(pat, rep)` (all occurrences, left to right). For an empty
pattern Python inserts `rep` before every character and after the last. -/
def replaceAll (s pat rep : Str) : Str :=
  match pat with
  | [] => rep ++ s.foldr (fun c acc => c :: (rep ++ acc)) []
  | p :: ps => replaceAllAux p ps rep s.length s

/-- Scan of `splitSep` for a non-empty separator `p :: ps`; `acc` holds the
current piece reversed, and the fuel (the string length) makes the recursion
structural. -/
def splitSepAux (p : Char) (ps : Str) : Nat → Str → Str → List Str
  | _, acc, [] => [acc.reverse]
  | 0, acc, s => [acc.reverse ++ s]
  | fuel + 1, acc, c :: t =>
    if (p :: ps).isPrefixOf (c :: t) then
      acc.reverse :: splitSepAux p ps fuel [] (t.drop ps.length)
    else splitSepAux p ps fuel (c :: acc) t

/-- Python `s.split(sep)` for a non-empty separator (gtml never passes an empty
one; Python would raise there, and we return `[s]`). -/
def splitSep (sep s : Str) : List Str :=
  match sep with
  | [] => [s]
  | p :: ps => splitSepAux p ps s.length [] s

/-- The whitespace characters of Python `str.split()` / regex `\s`. -/
def isPyWs (c : Char) : Bool :=
  c = ' ' || c = '\t' || c = '\n' || c = Char.ofNat 13 || c = Char.ofNat 12 || c = Char.ofNat 11

/-- Python `s.split(maxsplit = n)`: split on whitespace runs, at most `n`
splits, the remainder kept verbatim after stripping its leading whitespace. -/
def pySplitWsMax : Nat → Str → List Str
  | 0, s =>
    match s.dropWhile isPyWs with
    | [] => []
    | c :: t => [c :: t]
  | m + 1, s =>
    match s.dropWhile isPyWs with
    | [] => []
    | c :: t =>
      let piece := (c :: t).takeWhile (fun x => !(isPyWs x))
      piece :: pySplitWsMax m ((c :: t).drop piece.length)

/-- Python `s.strip(ch)`: remove every leading and trailing copy of `ch`. -/
def stripChar (ch : Char) (s : Str) : Str :=
  ((s.dropWhile (· = ch)).reverse.dropWhile (· = ch)).reverse

/-- Python `s.upper()` (gtml only compares ASCII keywords). -/
def upper (s : Str) : Str := s.map Char.toUpper

/-- One character of a pattern gtml builds by interpolating a string into a
regex: a literal, or `.` matching any character. -/
inductive RChar where
  | lit (c : Char)
  | any
deriving DecidableEq

/-- Compile an interpolated string: its `.` characters act as wildcards, which
is exactly what happens in `ChangeExtension` and `GetOutputBasename`. -/
def strToPat (s : Str) : List RChar :=
  s.map (fun c => if c = '.' then RChar.any else RChar.lit c)

/-- Match of one pattern character. -/
def rcharMatch : RChar → Char → Bool
  | RChar.lit c, d => c = d
  | RChar.any, _ => true

/-- Case-insensitive match of one pattern character (`re.IGNORECASE`). -/
def rcharMatchCI : RChar → Char → Bool
  | RChar.lit c, d => c.toLower = d.toLower
  | RChar.any, _ => true

/-- The pattern matches the segment of `s` starting at its head. -/
def patAtHead (pat : List RChar) (s : Str) : Bool :=
  decide (pat.length ≤ s.length) && (List.zip pat s).all (fun pc => rcharMatch pc.1 pc.2)

/-- `re.search(pat, s)`: the pattern matches somewhere in `s`. -/
def patSearch (pat : List RChar) : Str → Bool
  | [] => patAtHead pat []
  | c :: t => patAtHead pat (c :: t) || patSearch pat t

/-- `re.search(pat + "$", s)` without flags: the pattern matches a suffix. -/
def patAtEnd (pat : List RChar) (s : Str) : Bool :=
  decide (pat.length ≤ s.length) && patAtHead pat (s.drop (s.length - pat.length))

/-- `re.search(pat + "$", s, re.IGNORECASE)`. -/
def patAtEndCI (pat : List RChar) (s : Str) : Bool :=
  decide (pat.length ≤ s.length) &&
    (List.zip pat (s.drop (s.length - pat.length))).all (fun pc => rcharMatchCI pc.1 pc.2)

/-- Python-dict lookup on an insertion-ordered association list. -/
def lookupAssoc (l : List (Str × Str)) (k : Str) : Option Str :=
  match l.find? (fun p => p.1 = k) with
  | some p => some p.2
  | none => none

/-- Python-dict assignment: overwrite in place if the key exists, else append. -/
def updateAssoc (l : List (Str × Str)) (k v : Str) : List (Str × Str) :=
  if (l.find? (fun p => p.1 = k)).isSome then
    l.map (fun p => if p.1 = k then (k, v) else p)
  else l ++ [(k, v)]

/-- Python `del d[k]` preceded by `k in d` (no-op when absent). -/
def eraseAssoc (l : List (Str × Str)) (k : Str) : List (Str × Str) :=
  l.filter (fun p => !(p.1 = k : Bool))

/-- The process-wide mutable globals of gtml, gathered into one record.
Fields keep the Python variable names (src/gtml.py lines 55-94). -/
structure G where
  MACRO_START : Str
  MACRO_END : Str
  argsep : Str
  ext_target : Str
  extensions : List Str
  include_path : List Str
  output_dir : Str
  base_name : Str
  debug : Bool
  entities : Bool
  literal : Bool
  compression : Bool
  stamp : Str
  mstamp : Str
  defines : List (Str × Str)
  characters : List (Str × Str)
  file_aliases : List (Str × Str)
  dependencies : List (Str × Str)
  output_files : List Str
  lines : List Str
  pfile : List Str
  plevel : List Int
  ptitle : List Str
  file_to_process : List Str
  generate_makefiles : Bool
  warns : List Str
  errs : List Str
  outbuf : List Str
deriving DecidableEq

/-- The module-level initial values of the globals (src/gtml.py lines 55-94). -/
def initState : G where
  MACRO_START := str "<<"
  MACRO_END := str ">>"
  argsep := str ","
  ext_target := str ".html"
  extensions := [str ".html"]
  include_path := []
  output_dir := []
  base_name := []
  debug := false
  entities := false
  literal := false
  compression := false
  stamp := []
  mstamp := []
  defines := []
  characters := []
  file_aliases := []
  dependencies := []
  output_files := []
  lines := []
  pfile := []
  plevel := []
  ptitle := []
  file_to_process := []
  generate_makefiles := false
  warns := []
  errs := []
  outbuf := []

/-- The two source-file extensions (`ext_source`), never mutated. -/
def ext_source : List Str := [str ".gtm", str ".gtml"]

/-- `Warn`: log a warning (the line-number prefix of the real logger is not
modelled; messages are recorded without the Python quote decorations). -/
def pushWarn (st : G) (m : Str) : G := { st with warns := st.warns ++ [m] }

/-- `Error`: log an error; also models the `exit_status`/`error_count` bump by
the length of `errs`. -/
def pushErr (st : G) (m : Str) : G := { st with errs := st.errs ++ [m] }

/-- Append one emitted output line (a `print(..., file = out_file)`). -/
def emit (st : G) (l : Str) : G := { st with outbuf := st.outbuf ++ [l] }

/-- The external world: file contents (logical lines, backslash continuations
already folded by `ReadLine` and the trailing newline stripped), the host
`eval` and `subprocess.check_output` escape hatches (the latter's byte result
is modelled as a string), the formatted clock behind `SplitTime` and
`FormatTimestamp`, and the two file-metadata tests of `ProcessSourceFile`. -/
structure Env where
  fs : Str → Option (List Str)
  pyEval : Str → Str
  sysCmd : Str → Str
  fmtTime : Str → Str
  fmtMTime : Str → Str → Str
  outReadable : Str → Bool
  srcNewer : Str → Str → Bool

/-- `GetValue`: value of a macro, `''` when absent (src/gtml.py:348). -/
def GetValue (st : G) (key : Str) : Str :=
  match lookupAssoc st.defines key with
  | some v => v
  | none => []

/-- `Undefine` (src/gtml.py:357): drop the macro and any same-named character
translation. -/
def Undefine (st : G) (key : Str) : G :=
  { st with defines := eraseAssoc st.defines key,
            characters := eraseAssoc st.characters key }

/-- Store a key/value pair with the blank-value sentinel, as the tail of
`Define` does (src/gtml.py:312-315). -/
def defineStore (st : G) (key value : Str) : G :=
  { st with defines := updateAssoc st.defines key (if value = [] then BLANK else value) }

/-- `SetTimestamps` (src/gtml.py:255): refresh the TIMESTAMP / MTIMESTAMP
macros.  The `Define` calls it makes are for keys that are neither reserved nor
configuration keys, so they reduce to a plain sentinel-aware store. -/
def SetTimestamps (env : Env) (st : G) (name : Str) : G :=
  let st := if st.stamp ≠ [] then defineStore st (str "TIMESTAMP") (env.fmtTime st.stamp) else st
  if st.mstamp ≠ [] ∧ name ≠ [] then
    defineStore st (str "MTIMESTAMP") (env.fmtMTime name st.mstamp)
  else st

/-- The configuration-key side effects of `Define` (src/gtml.py:287-310). -/
def applyConfig (env : Env) (st : G) (key value : Str) : G :=
  let st := if key = str "INCLUDE_PATH" then { st with include_path := splitSep (str ":") value } else st
  let st := if key = str "OUTPUT_DIR" then { st with output_dir := value } else st
  let st := if key = str "OPEN_DELIMITER" then { st with MACRO_START := value } else st
  let st := if key = str "CLOSE_DELIMITER" then { st with MACRO_END := value } else st
  let st := if key = str "ARGUMENT_SEPARATOR" then { st with argsep := value } else st
  let st := if key = str "EXTENSION" then
      { st with ext_target := value, extensions := st.extensions ++ [value] } else st
  let st := if key = str "DEBUG" then { st with debug := true } else st
  if key = str "LANGUAGE" then SetTimestamps env st [] else st

/-- `Define` (src/gtml.py:270): reject the four reserved names with a warning,
apply configuration side effects, then store (empty values as the sentinel). -/
def Define (env : Env) (st : G) (key value : Str) : G :=
  if key = str "__PYTHON__" ∨ key = str "__SYSTEM__" ∨
     key = str "__NEWLINE__" ∨ key = str "__TAB__" then
    pushWarn st (str "system macros unmodifiable " ++ key)
  else
    defineStore (applyConfig env st key value) key value

/-- `ChangeExtension` (src/gtml.py:560): swap a source extension for the
target extension.  The interpolated extensions make their `.` characters act
as regex wildcards, and only the first of the two substitutions in each pass
is case-sensitive, exactly as in the source. -/
def ChangeExtension (st : G) (file_name : Str) : Str :=
  ext_source.foldl (fun file_name extension =>
    let pdot := RChar.lit '.' :: strToPat extension
    let file_name :=
      if patSearch pdot file_name then
        (if patAtEnd pdot file_name then file_name.take (file_name.length - pdot.length)
         else file_name)
      else file_name
    let pext := strToPat extension
    if patAtEndCI pext file_name then
      (if patAtEnd pext file_name then
        file_name.take (file_name.length - pext.length) ++ st.ext_target
       else file_name)
    else file_name) file_name

/-- `GetPathname` (src/gtml.py:583): directory part, ending in `/` if any. -/
def GetPathname (name : Str) : Str :=
  let name := replaceAll name [bslash] (str "/")
  let last_slash := srfind name (str "/")
  if last_slash ≠ -1 then pySlice name 0 (last_slash + 1) else []

/-- `GetOutputBasename` (src/gtml.py:601): basename of an output file with the
target extension stripped; also sets the `base_name` global. -/
def GetOutputBasename (st : G) (name : Str) : G × Str :=
  let name := replaceAll name [bslash] (str "/")
  let last_slash := srfind name (str "/")
  let base := pySlice name (last_slash + 1) name.length
  let base :=
    if patAtEnd (strToPat st.ext_target) base then
      base.take (base.length - st.ext_target.length)
    else base
  ({ st with base_name := base }, base)

/-- The global substitution `RE_PATH_RELATIVE.sub('../', s)` with the fixed
pattern `[^/]+/` (src/gtml.py:650): every maximal run of non-slash characters
followed by `/` becomes `../`.  The fuel (the string length) only makes the
recursion structural. -/
def rootSubAux : Nat → Str → Str
  | _, [] => []
  | 0, s => s
  | fuel + 1, '/' :: t => '/' :: rootSubAux fuel t
  | fuel + 1, c :: t =>
    match t.dropWhile (fun x => !(x = '/')) with
    | '/' :: rest => str "../" ++ rootSubAux fuel rest
    | _ => c :: t

/-- `RE_PATH_RELATIVE.sub('../', s)` (src/gtml.py:650, 666). -/
def rootSub (s : Str) : Str := rootSubAux s.length s

/-- `GetPathToRoot` (src/gtml.py:653). -/
def GetPathToRoot (file_path : Str) : Str :=
  let basename := replaceAll file_path [bslash] (str "/")
  let i := srfind basename (str "/")
  if i ≠ -1 then rootSub (pySlice basename 0 i ++ str "/") else []

/-- `ResolveOutputName` (src/gtml.py:1123) without its `mkdir` side effects,
which live outside the interpreter state. -/
def ResolveOutputName (st : G) (file_name : Str) : Str :=
  let file_name := ChangeExtension st file_name
  if st.output_dir ≠ [] ∧ ¬ (str "/").isPrefixOf file_name then
    st.output_dir ++ str "/" ++ file_name
  else file_name

/-- `DefineFilename` (src/gtml.py:318). -/
def DefineFilename (env : Env) (st : G) (key value : Str) : G :=
  if (str "/").isPrefixOf value then
    pushErr st (str "no absolute file references allowed: " ++ value)
  else
    Define env { st with file_aliases := updateAssoc st.file_aliases key value } key value

/-- `SetFileReferences` (src/gtml.py:333). -/
def SetFileReferences (env : Env) (st : G) : G :=
  st.file_aliases.foldl (fun st p =>
    let value := if GetValue st (str "ROOT_PATH") = BLANK then p.2
                 else GetValue st (str "ROOT_PATH") ++ p.2
    Define env st p.1 (ChangeExtension st value)) st

/-- `re.search(r'(.+)\((.+)\)', s)`, as `Markup` and the define handlers use
it: greedy matching picks the rightmost `(` that has at least one character
before it and a `)` at least two positions later; the second group then runs
to the last `)` of the string.  (`.` cannot match a newline, but gtml applies
this to single logical lines.) -/
def searchParen (s : Str) : Option (Str × Str) :=
  let cand := (List.range s.length).filter (fun p =>
    decide (1 ≤ p) && decide (s.getD p ' ' = '(') &&
    ((List.range s.length).any (fun q => decide (p + 2 ≤ q) && decide (s.getD q ' ' = ')'))))
  match cand.getLast? with
  | none => none
  | some p =>
    let q := (((List.range s.length).filter (fun q =>
      decide (p + 2 ≤ q) && decide (s.getD q ' ' = ')'))).getLast?).getD 0
    some (s.take p, (s.drop (p + 1)).take (q - (p + 1)))

/-- Tail `.*$` of the marker-prefix regex: `.*` cannot cross a newline and `$`
also matches just before one final newline. -/
def restDotStar (rest : Str) : Bool :=
  !(rest.contains '\n') || (rest.getLast? = some '\n' && !(rest.dropLast.contains '\n'))

/-- `re.match(r'\(\(\(MARKER(\d)+\)\)\).*$', s)` returning capture group 1:
because the group is `(\d)+` rather than `(\d+)`, it holds only the **last**
digit of the marker index (src/gtml.py:394). -/
def matchMarkerLevel (s : Str) : Option Char :=
  if (str "(((MARKER").isPrefixOf s then
    let afterM := s.drop 9
    let digits := afterM.takeWhile Char.isDigit
    if digits ≠ [] ∧ (str ")))").isPrefixOf (afterM.drop digits.length) ∧
       restDotStar ((afterM.drop digits.length).drop 3) then
      digits.getLast?
    else none
  else none

/-- Match of `\(\(\(MARKER(\d)+\)\)\)` at the head of `s` (no `$` tail),
returning the last digit of the index. -/
def matchMarkerHere (s : Str) : Option Char :=
  if (str "(((MARKER").isPrefixOf s then
    let afterM := s.drop 9
    let digits := afterM.takeWhile Char.isDigit
    if digits ≠ [] ∧ (str ")))").isPrefixOf (afterM.drop digits.length) then digits.getLast?
    else none
  else none

/-- `re.search(r'\(\(\(MARKER(\d)+\)\)\)', value)`: leftmost occurrence. -/
def findMarkerDigit : Str → Option Char
  | [] => none
  | c :: t =>
    match matchMarkerHere (c :: t) with
    | some d => some d
    | none => findMarkerDigit t

/-- The inner `while` of `Markup` (src/gtml.py:404-409): replace occurrences
of `argument` in `value` with marker `j`, re-searching from the start after
every replacement.  The loop diverges when `argument` occurs in the marker
text it inserts, so it is fueled. -/
def markupArg (j : Nat) (argument : Str) : Nat → Str → Option Str
  | 0, _ => none
  | fuel + 1, value =>
    let pos := sfind value argument
    if pos ≥ 0 ∧ argument.length > 0 then
      let marker := str "(((MARKER" ++ (toString j).data ++ str ")))"
      markupArg j argument fuel
        (pySlice value 0 pos ++ marker ++ pySlice value (pos + (argument.length : Int)) value.length)
    else some value

/-- The `for index, argument in enumerate(arg_list)` loop of `Markup`. -/
def markupArgs (start fuel : Nat) : List (Nat × Str) → Str → Option Str
  | [], value => some value
  | (index, argument) :: rest, value =>
    match markupArg (index + start) argument fuel value with
    | none => none
    | some value => markupArgs start fuel rest value

/-- `Markup` (src/gtml.py:370): rewrite a parenthesized macro declaration,
replacing formal-argument occurrences in `value` with positional markers that
continue from the rightmost marker already stored for the macro. -/
def Markup (st : G) (fuel : Nat) (statement value : Str) : Option (Str × Str) :=
  match searchParen statement with
  | none => some (statement, value)
  | some (stmt, arguments) =>
    let arg_list := splitSep st.argsep arguments
    let old_value := GetValue st stmt
    let start :=
      if old_value ≠ [] then
        let last_arg := pySlice old_value (srfind old_value (str "(((MARKER")) old_value.length
        match matchMarkerLevel last_arg with
        | some d => d.toNat - '0'.toNat + 1
        | none => 0
      else 0
    match markupArgs start fuel arg_list.enum value with
    | none => none
    | some value => some (stmt, value)

/-- `re.match(r'(^"[^"]*")', arg)` and its single-quote twin: the piece starts
with the quote and a closing quote occurs later in it. -/
def matchQuoted (q : Char) (arg : Str) : Bool :=
  match arg with
  | [] => false
  | c :: t => c = q && t.contains q

/-- The rejoin loop of `SplitArgs` (src/gtml.py:516-517, 523-524): keep
popping pieces and re-inserting the separator until the accumulated argument
closes its quote; popping from an exhausted list is Python `IndexError`,
modelled as `none`. -/
def joinQuoted (sep : Str) (q : Char) : Str → List Str → Option (Str × List Str)
  | arg, [] => if matchQuoted q arg then some (arg, []) else none
  | arg, t :: ts =>
    if matchQuoted q arg then some (arg, t :: ts)
    else joinQuoted sep q (arg ++ sep ++ t) ts

/-- The main `while len(temp) > 0` loop of `SplitArgs` (src/gtml.py:509-529).
The fuel is the number of pieces, which always suffices because every
iteration consumes at least the piece it pops; it only makes the recursion
structural. -/
def SplitArgsAux (sep : Str) : Nat → List Str → Option (List Str)
  | _, [] => some []
  | 0, _ :: _ => none
  | fuel + 1, arg :: rest =>
    if arg.head? = some dquote then
      match joinQuoted sep dquote arg rest with
      | none => none
      | some (a, restq) =>
        match SplitArgsAux sep fuel restq with
        | none => none
        | some args => some (stripChar dquote a :: args)
    else if arg.head? = some squote then
      match joinQuoted sep squote arg rest with
      | none => none
      | some (a, restq) =>
        match SplitArgsAux sep fuel restq with
        | none => none
        | some args => some (stripChar squote a :: args)
    else
      match SplitArgsAux sep fuel rest with
      | none => none
      | some args => some (arg :: args)

/-- `SplitArgs` (src/gtml.py:498): quote-aware split of a call's argument
string on the configured separator.  `none` models the `IndexError` raised on
an unclosed quote (and Python's `ValueError` on an empty separator). -/
def SplitArgs (st : G) (arg_string : Str) : Option (List Str) :=
  match st.argsep with
  | [] => none
  | _ =>
    let temp := splitSep st.argsep arg_string
    SplitArgsAux st.argsep temp.length temp

/-- The prefix `[^ \t]+[ \t]*` of the call-form regex: nonempty, starts with a
non-space-tab character, and anything from the first space/tab on is all
spaces/tabs. -/
def prefixOkCall (xs : Str) : Bool :=
  match xs with
  | [] => false
  | c :: _ => !(c = ' ' || c = '\t') &&
      ((xs.dropWhile (fun x => !(x = ' ' || x = '\t'))).all (fun x => x = ' ' || x = '\t'))

/-- `re.search(r'^[^ \t]+[ \t]*\(.*\)$', key)` (src/gtml.py:455): the key ends
in `)` and some `(` is preceded by a valid name prefix, with no newline in the
enclosed `.*` span. -/
def isCallForm (key : Str) : Bool :=
  key.getLast? = some ')' &&
  (List.range key.length).any (fun p =>
    decide (key.getD p ' ' = '(') && decide (p + 2 ≤ key.length) &&
    prefixOkCall (key.take p) &&
    !(((key.drop (p + 1)).take (key.length - 1 - (p + 1))).contains '\n'))

/-- Result of `Substitute`: a normal return, an exception raised inside it
(the IndexError / ValueError paths), or fuel exhaustion — the source loop
never finishing on this input. -/
inductive SOut where
  | ok (st : G) (line : Str)
  | raised
  | timeout
deriving DecidableEq

/-- The `while more:` delimiter scan of `Substitute` (src/gtml.py:447-490),
one fuel unit per iteration.  The locals `value` and `args_list` persist
across iterations exactly as in the source. -/
def substLoop (env : Env) : Nat → G → Str → Str → List Str → SOut
  | 0, _, _, _, _ => SOut.timeout
  | fuel + 1, st, line, value0, args_list =>
    let p2 := sfind line st.MACRO_END
    if p2 ≥ (st.MACRO_START.length : Int) then
      let l1 := st.MACRO_START.length
      let l2 := st.MACRO_END.length
      let p1 := srfindIn line st.MACRO_START p2.toNat
      let token := pySlice line p1 (p2 + (l2 : Int))
      let key := pySlice token (l1 : Int) (-(l2 : Int))
      let parsed : Option (Str × List Str) :=
        if isCallForm key then
          let keyName := key.takeWhile (fun c => !(c = '('))
          let argument := key.drop (keyName.length + 1)
          let argument := if argument.getLast? = some ')' then argument.dropLast else argument
          match SplitArgs st argument with
          | none => none
          | some l => some (keyName, l)
        else some (key, args_list)
      match parsed with
      | none => SOut.raised
      | some (key, args_list) =>
        let valueOpt : Option Str :=
          if key = str "__PYTHON__" then
            match args_list.head? with
            | none => none
            | some a => some (env.pyEval a)
          else if key = str "__SYSTEM__" then
            match args_list.head? with
            | none => none
            | some a => some (env.sysCmd a)
          else
            some (args_list.enum.foldl
              (fun value ia =>
                replaceAll value (str "(((MARKER" ++ (toString ia.1).data ++ str ")))") ia.2)
              (GetValue st key))
        match valueOpt with
        | none => SOut.raised
        | some value =>
          let st :=
            if value = [] ∧ ¬ (key = str "__PYTHON__" ∨ key = str "__SYSTEM__") then
              pushWarn st (str "undefined name " ++ key)
            else st
          let st :=
            match findMarkerDigit value with
            | some d => pushErr st (str "missing argument " ++ [d])
            | none => st
          let value := if value = BLANK then [] else value
          substLoop env fuel st (replaceFirst line token value) value args_list
    else
      -- the source also clears a leftover blank sentinel in `value` here, but
      -- that local is dead once the loop exits
      SOut.ok st line

/-- `Substitute` (src/gtml.py:414): entity escaping, the character-map pass
(whose `line.replace` result the source discards, so it has no effect),
protection of the two formatting macros, the delimiter scan, and the final
newline/tab restoration. -/
def Substitute (env : Env) (fuel : Nat) (st : G) (line : Str) : SOut :=
  let line :=
    if st.entities then
      let line := replaceAll line (str "&") (str "&amp;")
      let line := replaceAll line (str "<") (str "&lt;")
      replaceAll line (str ">") (str "&gt;")
    else line
  let line := replaceAll line (st.MACRO_START ++ str "__NEWLINE__" ++ st.MACRO_END) (str "__NEWLINE__")
  let line := replaceAll line (st.MACRO_START ++ str "__TAB__" ++ st.MACRO_END) (str "__TAB__")
  match substLoop env fuel st line [] [] with
  | SOut.ok st line =>
    SOut.ok st (replaceAll (replaceAll line (str "__NEWLINE__") (str "\n")) (str "__TAB__") (str "\t"))
  | r => r

/-- The conditional-stack locals of `ProcessLines` (src/gtml.py:1279-1283) —
`suppress`, `was_true`, `was_else`, `current`, `if_level` — which are fresh
for every invocation.  `ProcessProjectFile` holds an isomorphic instance. -/
structure CondState where
  suppress : List Bool
  wasTrue : List Bool
  wasElse : List Bool
  current : Nat
  ifLevel : Nat
deriving DecidableEq

/-- The initial conditional stack (src/gtml.py:1279-1283). -/
def CondState.init : CondState :=
  { suppress := [false], wasTrue := [false], wasElse := [false], current := 0, ifLevel := 0 }

/-- The `#if` arm of the stack machine (src/gtml.py:1336 and 1360-1365),
taking the already-evaluated condition.  The reachable states always index in
range, where `List.set` agrees with the Python element assignment. -/
def condIf (m : Bool) (cs : CondState) : CondState :=
  let ifLevel := cs.ifLevel + 1
  let suppress := cs.suppress ++ [!m]
  { suppress := suppress
    wasTrue := cs.wasTrue ++ [m]
    wasElse := cs.wasElse ++ [false]
    current := if !(suppress.getD cs.current false) then ifLevel else cs.current
    ifLevel := ifLevel }

/-- The `#elsif` arm (src/gtml.py:1366-1374); `true` flags the
"no preceding #if" error. -/
def condElsif (m : Bool) (cs : CondState) : CondState × Bool :=
  if cs.ifLevel = 0 then (cs, true)
  else if cs.wasTrue.getD cs.ifLevel false then
    ({ cs with suppress := cs.suppress.set cs.ifLevel true }, false)
  else
    ({ cs with suppress := cs.suppress.set cs.ifLevel (!m),
               wasTrue := cs.wasTrue.set cs.ifLevel m }, false)

/-- The `#else` arm (src/gtml.py:1377-1385); `some` carries the error. -/
def condElse (cs : CondState) : CondState × Option Str :=
  if cs.ifLevel = 0 then (cs, some (str "#else with no preceding #if"))
  else if cs.wasElse.getD cs.ifLevel false then (cs, some (str "multiple #else"))
  else
    ({ cs with suppress := cs.suppress.set cs.ifLevel (cs.wasTrue.getD cs.ifLevel false),
               wasElse := cs.wasElse.set cs.ifLevel true }, none)

/-- The `#endif` arm (src/gtml.py:1387-1397); `true` flags "unmatched #endif". -/
def condEndif (cs : CondState) : CondState × Bool :=
  if cs.ifLevel = 0 then (cs, true)
  else
    { suppress := cs.suppress.dropLast
      wasTrue := cs.wasTrue.dropLast
      wasElse := cs.wasElse.dropLast
      current := if cs.current = cs.ifLevel then cs.current - 1 else cs.current
      ifLevel := cs.ifLevel - 1 } |> (·, false)

/-- A line is acted upon only when `suppress[current]` is false
(src/gtml.py:1402). -/
def condEmits (cs : CondState) : Bool := !(cs.suppress.getD cs.current false)

/-- One item fed to the conditional machine: a conditional directive with its
evaluated condition, or a content line. -/
inductive CondItem where
  | cif (b : Bool)
  | celsif (b : Bool)
  | celse
  | cendif
  | text (t : Str)

/-- Run of the conditional machine over a sequence of items, collecting the
content lines that survive suppression. -/
def condRun (cs : CondState) : List CondItem → CondState × List Str
  | [] => (cs, [])
  | CondItem.cif b :: rest => condRun (condIf b cs) rest
  | CondItem.celsif b :: rest => condRun (condElsif b cs).1 rest
  | CondItem.celse :: rest => condRun (condElse cs).1 rest
  | CondItem.cendif :: rest => condRun (condEndif cs).1 rest
  | CondItem.text t :: rest =>
    let r := condRun cs rest
    (r.1, (if condEmits cs then [t] else []) ++ r.2)

/-- The comment-stripping loop of `CompressLines` (src/gtml.py:1253-1260),
fueled by the line length: every removal strictly shrinks the line, so the
initial fuel always suffices. -/
def compressStrip : Nat → Str → Str
  | 0, line => line
  | fuel + 1, line =>
    let p1 := sfind line (str "<!--")
    let p2 := sfind line (str "-->")
    if 0 ≤ p1 ∧ p1 < p2 ∧ 0 ≤ p2 then
      compressStrip fuel (pySlice line 0 p1 ++ pySlice line (p2 + 3) line.length)
    else line

/-- `re.sub(r'\s+', ' ', line)`: collapse each whitespace run into one space,
tracked by a previous-was-whitespace flag. -/
def squeezeWsAux (prevWs : Bool) : Str → Str
  | [] => []
  | c :: t =>
    if isPyWs c then
      (if prevWs then [] else [' ']) ++ squeezeWsAux true t
    else c :: squeezeWsAux false t

/-- `re.sub(r'\s+', ' ', line)` (src/gtml.py:1263). -/
def squeezeWs (s : Str) : Str := squeezeWsAux false s

/-- `CompressLines` (src/gtml.py:1232): join the buffered lines, drop HTML
comments, squeeze whitespace.  (The tab/linefeed `translate` in the source
discards its result and so does nothing.)  Returns the state with the buffer
cleared, and the compressed line with its trailing newline. -/
def CompressLines (st : G) : G × Str :=
  let line := st.lines.flatten
  let st := { st with lines := [] }
  let line := compressStrip line.length line
  let line := squeezeWs line
  let line := if line.getLast? = some ' ' then line.dropLast else line
  (st, line ++ str "\n")

/-- `print(CompressLines(), file = out_file)`. -/
def emitCompress (st : G) : G :=
  let r := CompressLines st
  emit r.1 r.2

/-- The `<!-- ### -->` unwrapping of `ProcessLines` (src/gtml.py:1293-1296):
remove every `<!-- ##`, then cut from the leftmost `\s*-->` to the end (the
stray `re.sub(r'|-->.*$', ...)` in between matches only empty strings and
changes nothing). -/
def stripHtmlComment (line : Str) : Str :=
  let line := replaceAll line (str "<!-- ##") []
  match sfindAux (str "-->") line 0 with
  | none => line
  | some j => line.take (j - ((line.take j).reverse.takeWhile isPyWs).length)

/-- `re.match(r'kw[ \t]', line)`: the keyword followed by a space or tab. -/
def matchKwSpace (kw line : Str) : Bool :=
  kw.isPrefixOf line &&
    ((line.drop kw.length).head? = some ' ' || (line.drop kw.length).head? = some '\t')

/-- `re.sub(r'^#include(literal)?[ \t]*"', '', line)`: strip the include
prefix up to and including the opening quote; the line stays unchanged when
the pattern does not match. -/
def stripIncludePrefix (line : Str) : Str :=
  if (str "#include").isPrefixOf line then
    let rest := line.drop 8
    let restL := if (str "literal").isPrefixOf rest then rest.drop 7 else rest
    let restL2 := restL.dropWhile (fun c => c = ' ' || c = '\t')
    if restL2.head? = some dquote then restL2.drop 1
    else
      let rest2 := rest.dropWhile (fun c => c = ' ' || c = '\t')
      if rest2.head? = some dquote then rest2.drop 1 else line
  else line

/-- The include-path loop of `ResolveIncludeFile` (src/gtml.py:691-697);
`none` is an exception escaping from `Substitute`. -/
def resolveFromIncludePath (env : Env) (fuel : Nat) (st : G) (name : Str) :
    List Str → Option (G × Option Str)
  | [] => some (st, none)
  | d :: rest =>
    match Substitute env fuel st d with
    | SOut.ok st expanded =>
      let expanded := replaceAll (expanded ++ str "/" ++ name) (str "//") []
      if (env.fs expanded).isSome then some (st, some expanded)
      else resolveFromIncludePath env fuel st name rest
    | _ => none

/-- `ResolveIncludeFile` (src/gtml.py:671).  A file is readable exactly when
`env.fs` has lines for it. -/
def ResolveIncludeFile (env : Env) (fuel : Nat) (st : G) (name : Str) : Option (G × Str) :=
  let path := replaceAll (GetValue st (str "PATHNAME") ++ name) (str "//") (str "/")
  let path := if GetValue st (str "PATHNAME") = BLANK then name else path
  if (env.fs path).isSome then some (st, path)
  else if (env.fs name).isSome then some (st, name)
  else
    match resolveFromIncludePath env fuel st name st.include_path with
    | none => none
    | some (st, some found) => some (st, found)
    | some (st, none) =>
      some (pushErr st (str "no include file " ++ name ++ str " in " ++
              GetValue st (str "INCLUDE_PATH")), [])

/-- The dependency-edge bookkeeping `if k not in dependencies:
dependencies[k] = ''` followed by `dependencies[k] += add`
(src/gtml.py:921-924, 1203-1206, 1432-1435). -/
def depAppend (st : G) (key add : Str) : G :=
  let old :=
    match lookupAssoc st.dependencies key with
    | some d => d
    | none => []
  { st with dependencies := updateAssoc st.dependencies key (old ++ add) }

/-- The newline-protection token `MACRO_START __NEWLINE__ MACRO_END`. -/
def nlToken (st : G) : Str := st.MACRO_START ++ str "__NEWLINE__" ++ st.MACRO_END

/-- The sitemap item entry emitted for one page; all three level cases of the
source emit this same text (src/gtml.py:1090-1093, 1096-1099, 1106-1109). -/
def siteMapItem (st : G) (lvl : Int) (f title : Str) : Str :=
  List.replicate (((lvl - 1) * 2 + 2).toNat) ' ' ++
  st.MACRO_START ++ str "__TOC_" ++ (toString lvl).data ++ str "_ITEM__(" ++ [squote] ++ f ++
  [squote] ++ st.argsep ++ [squote] ++ title ++ [squote] ++ str ")" ++ st.MACRO_END ++ nlToken st

/-- The per-page loop of `GenSiteMap` (src/gtml.py:1081-1111), returning the
final `level_old` and the accumulated text. -/
def genSiteMapLoop (st : G) : List Nat → Int → Str → Int × Str
  | [], level_old, acc => (level_old, acc)
  | xx :: rest, level_old, acc =>
    let f := ChangeExtension st (st.pfile.getD xx [])
    let lvl := st.plevel.getD xx 0
    let title := st.ptitle.getD xx []
    let acc := acc ++
      (if level_old < lvl then
        List.replicate (((lvl - 1) * 2).toNat) ' ' ++ st.MACRO_START ++ str "__TOC_" ++
          (toString lvl).data ++ str "__(" ++ [squote] ++ nlToken st ++
        siteMapItem st lvl f title
      else []) ++
      (if level_old = lvl then siteMapItem st lvl f title else []) ++
      (if level_old > lvl then
        List.replicate ((lvl * 2).toNat) ' ' ++ [squote] ++ str ")" ++ st.MACRO_END ++ nlToken st ++
        siteMapItem st lvl f title
      else [])
    genSiteMapLoop st rest lvl acc

/-- The closing loop of `GenSiteMap` (src/gtml.py:1113-1116).  It indexes
`plevel` by the *level number* `xx`, which can raise `IndexError` (`none`). -/
def genSiteMapClose (st : G) : List Nat → Str → Option Str
  | [], acc => some acc
  | xx :: rest, acc =>
    match st.plevel.get? xx with
    | none => none
    | some l =>
      genSiteMapClose st rest
        (acc ++ List.replicate (((l - 2) * 2).toNat) ' ' ++ [squote] ++ str ")" ++
         st.MACRO_END ++ nlToken st)

/-- `GenSiteMap` (src/gtml.py:1069): assemble the sitemap text from the page
list and pass it once through `Substitute`. -/
def GenSiteMap (env : Env) (fuel : Nat) (st : G) : Option (G × Str) :=
  let r := genSiteMapLoop st (List.range st.pfile.length) 0 []
  let closeIdx := (List.range r.1.toNat).reverse.map (· + 1)
  match genSiteMapClose st closeIdx r.2 with
  | none => none
  | some map_entry =>
    match Substitute env fuel st map_entry with
    | SOut.ok st m => some (st, m)
    | _ => none

/-- The line loop of `ProcessLines` (src/gtml.py:1291-1536) over already-read
logical lines (continuations folded, trailing newline stripped).  One fuel
unit is consumed per line, and the `#include` recursion re-enters with the
already-decremented fuel.  `hasOut` is `out_file is not None`.  `none` models
an exception escaping (failed tuple unpacking, `Substitute` raising) or fuel
running out. -/
def linesLoop (env : Env) (hasOut : Bool) :
    Nat → CondState → G → Str → List Str → Option G
  | _, _, st, _, [] =>
    some (if st.compression ∧ hasOut then emitCompress st else st)
  | 0, _, _, _, _ :: _ => none
  | fuel + 1, cs, st, gtm_name, line :: rest =>
    let line := if containsSub line (str "<!-- ###") then stripHtmlComment line else line
    if (str "#literal").isPrefixOf line then
      match pySplitWsMax 1 line with
      | [_, switch] =>
        if upper switch = str "ON" then
          linesLoop env hasOut fuel cs { st with literal := true } gtm_name rest
        else if upper switch = str "OFF" then
          linesLoop env hasOut fuel cs { st with literal := false } gtm_name rest
        else
          linesLoop env hasOut fuel cs (pushErr st (str "expecting #literal as ON or OFF")) gtm_name rest
      | _ => none
    else if st.literal then
      if hasOut then
        let st := if st.compression then emitCompress st else st
        match Substitute env fuel st line with
        | SOut.ok st line => linesLoop env hasOut fuel cs (emit st line) gtm_name rest
        | _ => none
      else linesLoop env hasOut fuel cs st gtm_name rest
    else if (str "#if").isPrefixOf line ∨ (str "#elsif").isPrefixOf line then
      let wasIf := (str "#if").isPrefixOf line
      let line := if wasIf then line else replaceFirst line (str "#els") (str "#")
      match Substitute env fuel st line with
      | SOut.ok st line =>
        let mOpt : Option (G × Bool) :=
          if (str "#ifdef").isPrefixOf line ∨ (str "#ifndef").isPrefixOf line then
            match pySplitWsMax 1 line with
            | [_, var] =>
              let m : Bool := decide (GetValue st var ≠ [])
              some (st, if (str "#ifndef").isPrefixOf line then !m else m)
            | _ => none
          else
            match pySplitWsMax 3 line with
            | [_, var, comp, value] =>
              if comp = str "==" then some (st, decide (var = value))
              else if comp = str "!=" then some (st, !(decide (var = value)))
              else some (pushErr st (str "unknown comparator " ++ comp), false)
            | _ => none
        match mOpt with
        | none => none
        | some (st, m) =>
          if wasIf then linesLoop env hasOut fuel (condIf m cs) st gtm_name rest
          else
            let r := condElsif m cs
            let st :=
              if r.2 then
                pushErr st (replaceFirst line (str "#") (str "#els") ++ str " with no preceding #if")
              else st
            linesLoop env hasOut fuel r.1 st gtm_name rest
      | _ => none
    else if (str "#else").isPrefixOf line then
      let r := condElse cs
      let st := match r.2 with | some e => pushErr st e | none => st
      linesLoop env hasOut fuel r.1 st gtm_name rest
    else if (str "#endif").isPrefixOf line then
      let r := condEndif cs
      let st := if r.2 then pushErr st (str "unmatched #endif") else st
      linesLoop env hasOut fuel r.1 st gtm_name rest
    else if cs.suppress.getD cs.current false then
      linesLoop env hasOut fuel cs st gtm_name rest
    else if (str "#entities").isPrefixOf line then
      -- src/gtml.py:1406-1415: this handler flips the *literal* flag, not the
      -- entities flag, and reports its errors as `#literal` errors
      match pySplitWsMax 1 line with
      | [_, switch] =>
        if upper switch = str "ON" then
          linesLoop env hasOut fuel cs { st with literal := true } gtm_name rest
        else if upper switch = str "OFF" then
          linesLoop env hasOut fuel cs { st with literal := false } gtm_name rest
        else
          linesLoop env hasOut fuel cs (pushErr st (str "expecting #literal as ON or OFF")) gtm_name rest
      | _ => none
    else if (str "#include").isPrefixOf line then
      let myPrevLiteral := st.literal
      let st := if (str "#includeliteral").isPrefixOf line then { st with literal := true } else st
      let st := if st.compression ∧ hasOut then emitCompress st else st
      match Substitute env fuel st line with
      | SOut.ok st line =>
        let line := stripIncludePrefix line
        let file_name := line.takeWhile (fun c => !(c = dquote))
        match ResolveIncludeFile env fuel st file_name with
        | none => none
        | some (st, file_name) =>
          let st := depAppend st gtm_name (file_name ++ str " ")
          let inner : Option G :=
            if file_name ≠ [] then
              -- the recursive ProcessLines(file_name, out_file) call
              match env.fs file_name with
              | none => some (pushErr st (str "unreadable " ++ file_name))
              | some ls2 => linesLoop env hasOut fuel CondState.init st file_name ls2
            else some st
          match inner with
          | none => none
          | some st => linesLoop env hasOut fuel cs { st with literal := myPrevLiteral } gtm_name rest
      | _ => none
    else if matchKwSpace (str "#definechar") line then
      match pySplitWsMax 2 line with
      | [_, key, value] =>
        linesLoop env hasOut fuel cs { st with characters := updateAssoc st.characters key value }
          gtm_name rest
      | _ => none
    else if matchKwSpace (str "#define") line then
      match pySplitWsMax 2 line with
      | [_, key, value] =>
        let st := match searchParen line with
          | some g => Undefine st g.1
          | none => st
        match Markup st fuel key value with
        | none => none
        | some (key, value) => linesLoop env hasOut fuel cs (Define env st key value) gtm_name rest
      | _ => none
    else if matchKwSpace (str "#newdefine") line then
      match pySplitWsMax 2 line with
      | [_, key, value] =>
        if GetValue st key ≠ [] then linesLoop env hasOut fuel cs st gtm_name rest
        else
          match Markup st fuel key value with
          | none => none
          | some (key, value) => linesLoop env hasOut fuel cs (Define env st key value) gtm_name rest
      | _ => none
    else if (str "#define!").isPrefixOf line then
      match Substitute env fuel st line with
      | SOut.ok st line =>
        match pySplitWsMax 2 line with
        | [_, key, value] =>
          let st := match searchParen line with
            | some g => Undefine st g.1
            | none => st
          match Markup st fuel key value with
          | none => none
          | some (key, value) => linesLoop env hasOut fuel cs (Define env st key value) gtm_name rest
        | _ => none
      | _ => none
    else if (str "#newdefine!").isPrefixOf line then
      match Substitute env fuel st line with
      | SOut.ok st line =>
        match pySplitWsMax 2 line with
        | [_, key, value] =>
          if GetValue st key ≠ [] then linesLoop env hasOut fuel cs st gtm_name rest
          else
            match Markup st fuel key value with
            | none => none
            | some (key, value) => linesLoop env hasOut fuel cs (Define env st key value) gtm_name rest
        | _ => none
      | _ => none
    else if (str "#define+").isPrefixOf line then
      match pySplitWsMax 2 line with
      | [_, key, value] =>
        match Markup st fuel key value with
        | none => none
        | some (key, value) =>
          linesLoop env hasOut fuel cs (Define env st key (GetValue st key ++ value)) gtm_name rest
      | _ => none
    else if matchKwSpace (str "#undef") line then
      match pySplitWsMax 1 line with
      | [_, key] => linesLoop env hasOut fuel cs (Undefine st key) gtm_name rest
      | _ => none
    else if (str "#compress").isPrefixOf line then
      match pySplitWsMax 1 line with
      | [_, switch] =>
        if upper switch = str "ON" then
          linesLoop env hasOut fuel cs { st with compression := true } gtm_name rest
        else if upper switch = str "OFF" then
          let st := if st.compression ∧ hasOut then emitCompress st else st
          linesLoop env hasOut fuel cs { st with compression := false } gtm_name rest
        else
          linesLoop env hasOut fuel cs (pushErr st (str "expecting #compress as ON or OFF")) gtm_name rest
      | _ => none
    else if (str "#toc").isPrefixOf line ∨ (str "#sitemap").isPrefixOf line then
      match GenSiteMap env fuel st with
      | none => none
      | some (st, site_map) =>
        let st :=
          if st.compression then { st with lines := st.lines ++ [site_map] }
          else if hasOut then emit st site_map
          else st
        linesLoop env hasOut fuel cs st gtm_name rest
    else if matchKwSpace (str "#timestamp") line then
      match pySplitWsMax 1 line with
      | [_, fmt] =>
        linesLoop env hasOut fuel cs (SetTimestamps env { st with stamp := fmt } gtm_name) gtm_name rest
      | _ => none
    else if matchKwSpace (str "#mtimestamp") line then
      match pySplitWsMax 1 line with
      | [_, fmt] =>
        linesLoop env hasOut fuel cs (SetTimestamps env { st with mstamp := fmt } gtm_name) gtm_name rest
      | _ => none
    else if ¬ (str "#").isPrefixOf line then
      match Substitute env fuel st line with
      | SOut.ok st line =>
        let st :=
          if st.compression then { st with lines := st.lines ++ [line] }
          else if hasOut then emit st line
          else st
        linesLoop env hasOut fuel cs st gtm_name rest
      | _ => none
    else
      -- a '#'-prefixed line recognized by no handler matches nothing and is dropped
      linesLoop env hasOut fuel cs st gtm_name rest

/-- `ProcessLines` (src/gtml.py:1270): readability check, then the line loop
with a fresh conditional stack. -/
def ProcessLines (env : Env) (hasOut : Bool) (fuel : Nat) (st : G) (gtm_name : Str) : Option G :=
  match env.fs gtm_name with
  | none => some (pushErr st (str "unreadable " ++ gtm_name))
  | some ls => linesLoop env hasOut fuel CondState.init st gtm_name ls

/-- The backward scan of `SetLinks` (src/gtml.py:1017-1022): from
`page_index - 1` walk down while the level stays at or above the target;
`none` is Python index `-1`. -/
def upScan (plevel : List Int) (tgt : Int) : Nat → Option Nat
  | 0 => none
  | k + 1 => if plevel.getD k 0 ≥ tgt then upScan plevel tgt k else some k

/-- `SetLinks` (src/gtml.py:994): recompute the seven navigation macros for
the page at `page_index`; `none` would be an out-of-range index, which the
callers never produce. -/
def SetLinks (env : Env) (st : G) (page_index : Nat) : Option G :=
  match st.pfile.get? page_index, st.plevel.get? page_index, st.ptitle.get? page_index with
  | some pf, some pl, some pt =>
    let st := Undefine st (str "TITLE_CURRENT")
    let st := Undefine st (str "TITLE_UP")
    let st := Undefine st (str "TITLE_NEXT")
    let st := Undefine st (str "TITLE_PREV")
    let st := Undefine st (str "LINK_UP")
    let st := Undefine st (str "LINK_NEXT")
    let st := Undefine st (str "LINK_PREV")
    let root_path := GetPathToRoot pf
    let st := Define env st (str "TITLE_CURRENT") pt
    let r :=
      match upScan st.plevel pl page_index with
      | some i =>
        if st.plevel.getD i 0 < pl then
          let upf := st.pfile.getD i []
          let st :=
            if (str "/").isPrefixOf upf then
              Define env st (str "LINK_UP") (ChangeExtension st upf)
            else
              Define env st (str "LINK_UP") (ChangeExtension st (root_path ++ upf))
          (Define env st (str "TITLE_UP") (st.ptitle.getD i []), upf)
        else (Undefine (Undefine st (str "LINK_UP")) (str "TITLE_UP"), ([] : Str))
      | none => (Undefine (Undefine st (str "LINK_UP")) (str "TITLE_UP"), ([] : Str))
    let st := r.1
    let up_file := r.2
    let st :=
      if page_index ≥ 1 ∧ st.pfile.getD (page_index - 1) [] ≠ [] ∧
         st.pfile.getD (page_index - 1) [] ≠ up_file then
        let pv := st.pfile.getD (page_index - 1) []
        let st :=
          if (str "/").isPrefixOf pv then
            Define env st (str "LINK_PREV") (ChangeExtension st pv)
          else
            Define env st (str "LINK_PREV") (ChangeExtension st (root_path ++ pv))
        Define env st (str "TITLE_PREV") (st.ptitle.getD (page_index - 1) [])
      else Undefine (Undefine st (str "LINK_PREV")) (str "TITLE_PREV")
    let st :=
      if page_index + 1 < st.pfile.length then
        let nx := st.pfile.getD (page_index + 1) []
        let st :=
          if (str "/").isPrefixOf nx then
            Define env st (str "LINK_NEXT") (ChangeExtension st nx)
          else
            Define env st (str "LINK_NEXT") (ChangeExtension st (root_path ++ nx))
        Define env st (str "TITLE_NEXT") (st.ptitle.getD (page_index + 1) [])
      else Undefine (Undefine st (str "LINK_NEXT")) (str "TITLE_NEXT")
    some st
  | _, _, _ => none

/-- The body of `ProcessSourceFile` between the snapshot and the restore
(src/gtml.py:1191-1226). -/
def processSourceBody (env : Env) (fuel : Nat) (st : G) (gtm_name parent : Str) : Option G :=
  match env.fs gtm_name with
  | none => some (pushErr st (str "unreadable " ++ gtm_name))
  | some _ =>
    let htm_name := ResolveOutputName st gtm_name
    let st := Define env st (str "ROOT_PATH") (GetPathToRoot gtm_name)
    let r := GetOutputBasename st htm_name
    let st := Define env r.1 (str "BASENAME") r.2
    let st := Define env st (str "FILENAME") (GetValue st st.base_name ++ st.ext_target)
    let st := Define env st (str "PATHNAME") (GetPathname gtm_name)
    if gtm_name = htm_name then
      some (pushErr st (str "source same as target " ++ gtm_name))
    else
      let st := depAppend st htm_name (parent ++ str " " ++ gtm_name)
      let st := if htm_name ∈ st.output_files then st
                else { st with output_files := st.output_files ++ [htm_name] }
      if (lookupAssoc st.defines (str "FAST_GENERATION")).isNone ∨
         ¬ env.outReadable htm_name ∨ env.srcNewer gtm_name htm_name then
        let st := SetFileReferences env st
        let st := SetTimestamps env st gtm_name
        if ¬ st.generate_makefiles then ProcessLines env true fuel st gtm_name
        else ProcessLines env false fuel st gtm_name
      else
        some (pushWarn st (str "output more recent than input, nothing done"))

/-- `ProcessSourceFile` (src/gtml.py:1171): snapshot the macro table and the
character map, run the body, restore both.  The `file_to_process` filter
returns before anything is touched.  `none` models an exception escaping the
body (which in Python aborts the whole run, so the call never returns). -/
def ProcessSourceFile (env : Env) (fuel : Nat) (st : G)
    (gtm_name parent level : Str) : Option G :=
  let save_defines := st.defines
  let save_characters := st.characters
  if st.file_to_process ≠ [] ∧ gtm_name ∉ st.file_to_process then some st
  else
    match processSourceBody env fuel st gtm_name parent with
    | none => none
    | some st2 => some { st2 with defines := save_defines, characters := save_characters }

/-! ### Supporting definitions for the claim statements -/

/-- A fixed trivial environment for concrete runs: no readable files, and the
escape-hatch / clock oracles all return empty strings. -/
def env0 : Env where
  fs := fun _ => none
  pyEval := fun _ => []
  sysCmd := fun _ => []
  fmtTime := fun _ => []
  fmtMTime := fun _ _ => []
  outReadable := fun _ => false
  srcNewer := fun _ _ => false

/-- A macro name fit for a plain delimited invocation with the default
delimiters: none of its characters is `<`, `>` or `(`. -/
def plainName (N : Str) : Prop := ∀ c ∈ N, c ≠ '<' ∧ c ≠ '>' ∧ c ≠ '('

/-- The page list of the hierarchy-linking example:
`[(A,1,"A"), (B,2,"B"), (C,2,"C"), (D,1,"D")]` over source files `a.gtm` …
`d.gtm`. -/
def pagesABCD : G :=
  { initState with
    pfile := [str "a.gtm", str "b.gtm", str "c.gtm", str "d.gtm"]
    plevel := [1, 2, 2, 1]
    ptitle := [str "A", str "B", str "C", str "D"] }

/-- A state whose `file_to_process` filter excludes everything. -/
def stOnlyZZ : G := { initState with file_to_process := [str "zz"] }

/-- Every separator piece that opens a quote is eventually closed: the piece
itself already matches the quote regex, or the quote character occurs in some
later piece (which the rejoin loop will reach). -/
def quotesClosable : List Str → Bool
  | [] => true
  | p :: rest =>
    (!(decide (p.head? = some dquote)) || matchQuoted dquote p ||
      rest.any (fun t => t.contains dquote)) &&
    ((!(decide (p.head? = some squote)) || matchQuoted squote p ||
      rest.any (fun t => t.contains squote)) &&
     quotesClosable rest)

/-- The items of the elsif/else tail of a flat conditional chain, ending in
`endif`; each branch carries its content lines. -/
def chainItems (rest : List (Bool × List Str)) (elseBr : Option (List Str)) : List CondItem :=
  (rest.flatMap (fun br => CondItem.celsif br.1 :: br.2.map CondItem.text)) ++
  (match elseBr with
   | some ls => CondItem.celse :: ls.map CondItem.text
   | none => []) ++ [CondItem.cendif]

/-- A full flat `if … [elsif …]* [else] endif` sequence with evaluated
conditions and content lines. -/
def buildSeq (b0 : Bool) (ls0 : List Str) (rest : List (Bool × List Str))
    (elseBr : Option (List Str)) : List CondItem :=
  CondItem.cif b0 :: (ls0.map CondItem.text ++ chainItems rest elseBr)

/-- The branch selected among the elsif/else tail when no earlier branch was
true: the first elsif with a true condition, else the else branch, else
nothing. -/
def pickChain : List (Bool × List Str) → Option (List Str) → List Str
  | [], none => []
  | [], some ls => ls
  | (b, ls) :: r, e => if b then ls else pickChain r e

/-- The branch a well-formed chain should keep: the first branch whose
condition is true, else the else branch, else nothing. -/
def pickBranch (b0 : Bool) (ls0 : List Str) (rest : List (Bool × List Str))
    (elseBr : Option (List Str)) : List Str :=
  if b0 then ls0 else pickChain rest elseBr

/-- What the machine actually emits from the chain tail, starting in the state
where `w` records whether some earlier branch of the chain was already true. -/
def selChain : List (Bool × List Str) → Option (List Str) → Bool → List Str
  | [], none, _ => []
  | [], some ls, w => if w then [] else ls
  | (b, ls) :: r, e, w =>
    if w then selChain r e true
    else (if b then ls else []) ++ selChain r e b

/-- The chain state reached inside a top-level conditional: base frame plus
one frame with suppression `c` and branch-already-true flag `w`. -/
def csC (c w : Bool) : CondState :=
  { suppress := [false, c], wasTrue := [false, w], wasElse := [false, false],
    current := 1, ifLevel := 1 }

/-- The state after the `else` of a top-level conditional whose earlier
branches were true iff `w`. -/
def csE (w : Bool) : CondState :=
  { suppress := [false, w], wasTrue := [false, w], wasElse := [false, true],
    current := 1, ifLevel := 1 }

/-! ### C3 — the character map is consulted but never applied -/

/-- C3 (code bug): `Substitute` discards the result of every
`line.replace(user_char, characters[user_char])` call (src/gtml.py:431), so
with the character map sending `a` to `bb` the line `a` comes back as `a`
untouched — the claim expects every occurrence of `a` replaced by `bb`. -/
theorem substitute_ignores_character_map :
    Substitute env0 5 { initState with characters := [(str "a", str "bb")] } (str "a") =
      SOut.ok { initState with characters := [(str "a", str "bb")] } (str "a") := by
  decide

/-! ### C5 — the hierarchy-linking example -/

/-- C5: on the page list `[(A,1),(B,2),(C,2),(D,1)]`, `SetLinks` on `C`
defines up = A, prev = B, next = D, and `SetLinks` on `B` defines up = A,
leaves both prev macros undefined (the previous entry equals the up target),
and defines next = C. -/
theorem setlinks_hierarchy_example :
    (SetLinks env0 pagesABCD 2).isSome = true ∧
    GetValue ((SetLinks env0 pagesABCD 2).getD initState) (str "TITLE_UP") = str "A" ∧
    GetValue ((SetLinks env0 pagesABCD 2).getD initState) (str "LINK_UP") = str "a.html" ∧
    GetValue ((SetLinks env0 pagesABCD 2).getD initState) (str "TITLE_PREV") = str "B" ∧
    GetValue ((SetLinks env0 pagesABCD 2).getD initState) (str "LINK_PREV") = str "b.html" ∧
    GetValue ((SetLinks env0 pagesABCD 2).getD initState) (str "TITLE_NEXT") = str "D" ∧
    GetValue ((SetLinks env0 pagesABCD 2).getD initState) (str "LINK_NEXT") = str "d.html" ∧
    (SetLinks env0 pagesABCD 1).isSome = true ∧
    GetValue ((SetLinks env0 pagesABCD 1).getD initState) (str "TITLE_UP") = str "A" ∧
    GetValue ((SetLinks env0 pagesABCD 1).getD initState) (str "LINK_UP") = str "a.html" ∧
    lookupAssoc ((SetLinks env0 pagesABCD 1).getD initState).defines (str "TITLE_PREV") = none ∧
    lookupAssoc ((SetLinks env0 pagesABCD 1).getD initState).defines (str "LINK_PREV") = none ∧
    GetValue ((SetLinks env0 pagesABCD 1).getD initState) (str "TITLE_NEXT") = str "C" ∧
    GetValue ((SetLinks env0 pagesABCD 1).getD initState) (str "LINK_NEXT") = str "c.html" := by
  decide

/-! ### C6 — marker numbering above index nine -/

/-- C6 (code bug): with `M` already holding `(((MARKER10)))`, declaring
`M(x)` over the value `ax` yields `a(((MARKER1)))`: the capture group
`(\d)+` of src/gtml.py:394 keeps only the last digit `0`, so numbering
restarts at 1 instead of continuing at 11 as the claim requires. -/
theorem markup_marker_numbering_after_ten :
    (Markup { initState with defines := [(str "M", str "(((MARKER10)))")] } 20
        (str "M(x)") (str "ax") = some (str "M", str "a(((MARKER1)))")) ∧
    (Markup { initState with defines := [(str "M", str "(((MARKER10)))")] } 20
        (str "M(x)") (str "ax") ≠ some (str "M", str "a(((MARKER11)))")) := by
  decide

/-! ### C7 — the `#entities` directive -/

/-- C7 (code bug): feeding `#entities ON` to the source-line interpreter in
the initial state (both flags off) yields the state with `literal = true` and
`entities` still `false`: the handler (src/gtml.py:1406-1415) assigns the
*literal* flag, while the claim says it must set the entity-escaping flag and
leave the literal flag unchanged. -/
theorem entities_directive_sets_literal_flag :
    linesLoop env0 true 3 CondState.init initState (str "f.gtm") [str "#entities ON"] =
      some { initState with literal := true } := by
  decide

/-! ### C10 — totality of SplitArgs -/

/-- C10 counterexample: on the argument string `"abc` — a piece opening a
double quote that nothing ever closes — `SplitArgs` pops from an exhausted
piece list (Python `IndexError`), so it is not total. -/
theorem splitargs_unclosed_quote_raises :
    SplitArgs initState ([dquote] ++ str "abc") = none := by
  decide

/-- The rejoin loop succeeds — without ever popping from an exhausted list —
whenever the accumulated argument already matches the quote regex or the
quote character occurs in a remaining piece; the untouched remainder it
returns is a suffix of the pieces it was given. -/
theorem joinQuoted_succeeds (sep : Str) (q : Char) :
    ∀ (temp : List Str) (arg : Str), arg.head? = some q →
      (matchQuoted q arg || temp.any (fun t => t.contains q)) = true →
      ∃ a restq, joinQuoted sep q arg temp = some (a, restq) ∧ restq <:+ temp := by
  intro temp
  induction temp with
  | nil =>
    intro arg hhead hc
    simp only [List.any_nil, Bool.or_false] at hc
    exact ⟨arg, [], by simp [joinQuoted, hc], List.suffix_refl _⟩
  | cons t ts ih =>
    intro arg hhead hc
    by_cases hm : matchQuoted q arg = true
    · exact ⟨arg, t :: ts, by simp [joinQuoted, hm], List.suffix_refl _⟩
    · have hstep : joinQuoted sep q arg (t :: ts) = joinQuoted sep q (arg ++ sep ++ t) ts := by
        simp [joinQuoted, hm]
      obtain ⟨c, r, rfl⟩ : ∃ c r, arg = c :: r := by
        cases arg with
        | nil => simp at hhead
        | cons c r => exact ⟨c, r, rfl⟩
      have hcq : c = q := by simpa using hhead
      have hhead' : ((c :: r) ++ sep ++ t).head? = some q := by simp [hcq]
      have hc' : (matchQuoted q ((c :: r) ++ sep ++ t) ||
          ts.any (fun t => t.contains q)) = true := by
        have hmf : matchQuoted q (c :: r) = false := Bool.eq_false_iff.mpr hm
        simp only [hmf, Bool.false_or, List.any_cons] at hc
        rw [Bool.or_eq_true] at hc
        rcases hc with hct | hts
        · have hqmem : q ∈ t := by
            rw [List.contains_eq_any_beq] at hct
            rw [List.any_eq_true] at hct
            obtain ⟨x, hx, hqx⟩ := hct
            rw [beq_iff_eq] at hqx
            exact hqx ▸ hx
          have hmt : matchQuoted q ((c :: r) ++ sep ++ t) = true := by
            simp [matchQuoted, hcq]
            right
            right
            exact hqmem
          rw [hmt, Bool.true_or]
        · rw [hts, Bool.or_true]
      obtain ⟨a, restq, hj, hsuf⟩ := ih ((c :: r) ++ sep ++ t) hhead' hc'
      exact ⟨a, restq, by rw [hstep, hj], hsuf.trans (List.suffix_cons t ts)⟩

/-- `quotesClosable` carries over to every suffix of the piece list. -/
theorem quotesClosable_suffix :
    ∀ (l l' : List Str), l' <:+ l → quotesClosable l = true → quotesClosable l' = true := by
  intro l
  induction l with
  | nil =>
    intro l' hsuf h
    rw [List.suffix_nil.mp hsuf]
    rfl
  | cons p rest ih =>
    intro l' hsuf h
    rcases List.suffix_cons_iff.mp hsuf with heq | hsuf'
    · rw [heq]; exact h
    · unfold quotesClosable at h
      rw [Bool.and_eq_true, Bool.and_eq_true] at h
      exact ih l' hsuf' h.2.2

/-- The main loop of `SplitArgs` succeeds whenever every piece that opens a
quote is eventually closed (the fuel being at least the number of pieces, as
at the call site). -/
theorem splitArgsAux_total (sep : Str) :
    ∀ (fuel : Nat) (pieces : List Str), pieces.length ≤ fuel →
      quotesClosable pieces = true →
      (SplitArgsAux sep fuel pieces).isSome = true := by
  intro fuel
  induction fuel with
  | zero =>
    intro pieces hlen _
    cases pieces with
    | nil => rfl
    | cons a r => simp at hlen
  | succ k ih =>
    intro pieces hlen h
    cases pieces with
    | nil => rfl
    | cons arg rest =>
      unfold quotesClosable at h
      rw [Bool.and_eq_true, Bool.and_eq_true] at h
      obtain ⟨hq1, hq2, hrest⟩ := h
      simp only [List.length_cons, Nat.add_le_add_iff_right] at hlen
      unfold SplitArgsAux
      by_cases hd : arg.head? = some dquote
      · have hcond : (matchQuoted dquote arg ||
            rest.any (fun t => t.contains dquote)) = true := by
          rw [decide_eq_true hd] at hq1
          simpa using hq1
        obtain ⟨a, restq, hj, hsuf⟩ := joinQuoted_succeeds sep dquote rest arg hd hcond
        rw [if_pos hd, hj]
        have hcl := quotesClosable_suffix rest restq hsuf hrest
        have hlen' : restq.length ≤ k := le_trans hsuf.length_le hlen
        have hsome := ih restq hlen' hcl
        cases hs : SplitArgsAux sep k restq with
        | none => rw [hs] at hsome; simp at hsome
        | some args => simp [hs]
      · by_cases hsq : arg.head? = some squote
        · have hcond : (matchQuoted squote arg ||
              rest.any (fun t => t.contains squote)) = true := by
            rw [decide_eq_true hsq] at hq2
            simpa using hq2
          obtain ⟨a, restq, hj, hsuf⟩ := joinQuoted_succeeds sep squote rest arg hsq hcond
          rw [if_neg hd, if_pos hsq, hj]
          have hcl := quotesClosable_suffix rest restq hsuf hrest
          have hlen' : restq.length ≤ k := le_trans hsuf.length_le hlen
          have hsome := ih restq hlen' hcl
          cases hs : SplitArgsAux sep k restq with
          | none => rw [hs] at hsome; simp at hsome
          | some args => simp [hs]
        · rw [if_neg hd, if_neg hsq]
          have hsome := ih rest hlen hrest
          cases hs : SplitArgsAux sep k rest with
          | none => rw [hs] at hsome; simp at hsome
          | some args => simp [hs]

/-- C10 amended: `SplitArgs` returns an argument list — the rejoin loop never
pops from an exhausted list — for every argument string (and non-empty
separator) in which every separator piece that begins with a quote character
has a matching closing quote later in the string (in the same piece or in
any later piece); a piece that opens a quote no piece ever closes makes it
raise `IndexError` instead. -/
theorem splitargs_total_when_quotes_closable (st : G) (arg_string : Str)
    (hsep : st.argsep ≠ [])
    (h : quotesClosable (splitSep st.argsep arg_string) = true) :
    (SplitArgs st arg_string).isSome = true := by
  unfold SplitArgs
  cases hargsep : st.argsep with
  | nil => exact absurd hargsep hsep
  | cons p ps =>
    rw [hargsep] at h
    exact splitArgsAux_total (p :: ps) _ _ (Nat.le_refl _) h

/-- Witness for the amended C10 at the concrete input `"a,b",c` (a quoted
argument with an embedded separator) under the default comma separator. -/
theorem splitargs_total_witness :
    (SplitArgs initState ([dquote] ++ str "a,b" ++ [dquote] ++ str ",c")).isSome = true := by
  exact splitargs_total_when_quotes_closable initState
    ([dquote] ++ str "a,b" ++ [dquote] ++ str ",c") (by decide) (by decide)

/-! ### C9 — ProcessSourceFile restores the macro table and character map -/

/-- C9: whenever `ProcessSourceFile` returns, the macro table and the
character map equal their values before the call — the snapshot taken at
entry (src/gtml.py:1182-1183) is unconditionally restored at exit
(src/gtml.py:1228-1229), and the early `file_to_process` return touches
neither. -/
theorem processSourceFile_restores_tables (env : Env) (fuel : Nat) (st : G)
    (gtm_name parent level : Str) (st' : G)
    (h : ProcessSourceFile env fuel st gtm_name parent level = some st') :
    st'.defines = st.defines ∧ st'.characters = st.characters := by
  unfold ProcessSourceFile at h
  split at h
  · cases h
    exact ⟨rfl, rfl⟩
  · cases hb : processSourceBody env fuel st gtm_name parent with
    | none => rw [hb] at h; cases h
    | some st2 =>
      rw [hb] at h
      cases h
      exact ⟨rfl, rfl⟩

/-- Witness for C9: a concrete call (filtered out by `file_to_process`)
returns, and the theorem applies to it. -/
theorem processSourceFile_restores_tables_witness :
    (match ProcessSourceFile env0 1 stOnlyZZ (str "a.gtm") [] [] with
     | some st' => st'.defines = stOnlyZZ.defines ∧ st'.characters = stOnlyZZ.characters
     | none => False) := by
  have h : ProcessSourceFile env0 1 stOnlyZZ (str "a.gtm") [] [] = some stOnlyZZ := by decide
  rw [h]
  exact processSourceFile_restores_tables env0 1 stOnlyZZ (str "a.gtm") [] [] stOnlyZZ h

/-! ### C2 — Substitute loops forever on an unmatched closing delimiter -/

set_option maxHeartbeats 2000000 in
/-- One scan iteration on `ab>>cd`: the empty token between the phantom
opening delimiter (`rfind` returned `-1`, so the slice is empty) and the
closing delimiter produces the empty key, a warning, and
`line.replace('', '', 1)` leaves the line unchanged. -/
theorem substLoop_abcd_step (env : Env) (n : Nat) (w e : List Str) :
    substLoop env (n + 1) { initState with warns := w, errs := e } (str "ab>>cd") [] [] =
      substLoop env n { initState with warns := w ++ [str "undefined name " ++ []], errs := e }
        (str "ab>>cd") [] [] := rfl

/-- C2 (code bug): `Substitute` never terminates on the line `ab>>cd`, whose
closing delimiter has no opening delimiter before it: the loop body returns
an identical line for every fuel bound, so the result is `timeout` for all
fuel — the claim says the scan always ends. -/
theorem substitute_unmatched_close_diverges (env : Env) (fuel : Nat) :
    Substitute env fuel initState (str "ab>>cd") = SOut.timeout := by
  have key : ∀ (n : Nat) (w e : List Str),
      substLoop env n { initState with warns := w, errs := e } (str "ab>>cd") [] [] =
        SOut.timeout := by
    intro n
    induction n with
    | zero => intro w e; rfl
    | succ k ih =>
      intro w e
      rw [substLoop_abcd_step]
      exact ih _ _
  have h0 : substLoop env fuel initState (str "ab>>cd") [] [] = SOut.timeout :=
    key fuel [] []
  have hrw : Substitute env fuel initState (str "ab>>cd") =
      (match substLoop env fuel initState (str "ab>>cd") [] [] with
       | SOut.ok st line =>
         SOut.ok st (replaceAll (replaceAll line (str "__NEWLINE__") (str "\n"))
           (str "__TAB__") (str "\t"))
       | r => r) := rfl
  rw [hrw, h0]

/-! ### C4 — the conditional machine emits the selected branch -/

/-- Content lines pass through `condRun` untouched and are kept exactly when
the current state is unsuppressed. -/
theorem condRun_texts (cs : CondState) (ls : List Str) (k : List CondItem) :
    condRun cs (ls.map CondItem.text ++ k) =
      ((condRun cs k).1, (if condEmits cs then ls else []) ++ (condRun cs k).2) := by
  induction ls with
  | nil => simp
  | cons a t ih =>
    simp only [List.map_cons, List.cons_append, condRun, List.append_eq]
    rw [ih]
    by_cases h : condEmits cs <;> simp [h]

/-- `chainItems` unfolds one elsif branch at a time. -/
theorem chainItems_cons (b : Bool) (ls : List Str) (r : List (Bool × List Str))
    (e : Option (List Str)) :
    chainItems ((b, ls) :: r) e =
      CondItem.celsif b :: (ls.map CondItem.text ++ chainItems r e) := by
  simp [chainItems, List.flatMap_cons, List.append_assoc]

/-- Entering a top-level `if` with condition `b` moves the machine to the
chain state. -/
theorem condIf_init (b : Bool) : condIf b CondState.init = csC (!b) b := by
  cases b <;> rfl

/-- An `elsif` after a true branch forces suppression and keeps the flag. -/
theorem condElsif_csC_true (m c : Bool) : condElsif m (csC c true) = (csC true true, false) := by
  cases c <;> rfl

/-- An `elsif` with no prior true branch re-evaluates the frame. -/
theorem condElsif_csC_false (m c : Bool) : condElsif m (csC c false) = (csC (!m) m, false) := by
  cases c <;> rfl

/-- `else` suppresses exactly when an earlier branch was true. -/
theorem condElse_csC (c w : Bool) : condElse (csC c w) = (csE w, none) := by
  cases c <;> cases w <;> rfl

/-- `endif` pops the chain frame back to the initial state. -/
theorem condEndif_csC (c w : Bool) : condEndif (csC c w) = (CondState.init, false) := by
  cases c <;> rfl

/-- `endif` also pops the post-else state back to the initial state. -/
theorem condEndif_csE (w : Bool) : condEndif (csE w) = (CondState.init, false) := by
  cases w <;> rfl

/-- Emission in the chain state is the negation of the frame suppression. -/
theorem condEmits_csC (c w : Bool) : condEmits (csC c w) = !c := by
  cases c <;> rfl

/-- Emission after `else` is the negation of the branch-already-true flag. -/
theorem condEmits_csE (w : Bool) : condEmits (csE w) = !w := by
  cases w <;> rfl

/-- Running the chain tail from the chain state emits exactly `selChain`. -/
theorem condRun_chain (rest : List (Bool × List Str)) (elseBr : Option (List Str)) :
    ∀ c w : Bool,
      (condRun (csC c w) (chainItems rest elseBr)).2 = selChain rest elseBr w := by
  induction rest with
  | nil =>
    intro c w
    cases elseBr with
    | none =>
      show (condRun (csC c w) [CondItem.cendif]).2 = selChain [] none w
      simp [condRun, condEndif_csC, selChain]
    | some ls =>
      show (condRun (csC c w) (CondItem.celse :: (ls.map CondItem.text ++ [CondItem.cendif]))).2 =
        selChain [] (some ls) w
      simp only [condRun, condElse_csC]
      rw [condRun_texts]
      simp only [condRun, condEndif_csE, condEmits_csE]
      cases w <;> simp [condRun, selChain]
  | cons br r ih =>
    intro c w
    obtain ⟨b, ls⟩ := br
    rw [chainItems_cons]
    simp only [condRun]
    cases w with
    | true =>
      rw [condElsif_csC_true]
      rw [condRun_texts]
      simp only [condEmits_csC]
      rw [ih true true]
      simp [selChain]
    | false =>
      rw [condElsif_csC_false]
      rw [condRun_texts]
      simp only [condEmits_csC]
      rw [ih (!b) b]
      cases b <;> simp [selChain]

/-- Once a branch was true, the rest of the chain emits nothing. -/
theorem selChain_true (r : List (Bool × List Str)) (e : Option (List Str)) :
    selChain r e true = [] := by
  induction r with
  | nil => cases e <;> rfl
  | cons br rest ih => obtain ⟨b, ls⟩ := br; simp [selChain, ih]

/-- With no prior true branch, the chain keeps the first true branch (or the
else branch). -/
theorem selChain_false (r : List (Bool × List Str)) (e : Option (List Str)) :
    selChain r e false = pickChain r e := by
  induction r with
  | nil => cases e <;> rfl
  | cons br rest ih =>
    obtain ⟨b, ls⟩ := br
    cases b with
    | true => simp [selChain, pickChain, selChain_true]
    | false => simp [selChain, pickChain, ih]

/-- C4 amended: a flat, well-formed `if … [elsif …]* [else] endif` sequence
run by the conditional machine from the top-level (unsuppressed) state emits
exactly the lines of the selected branch — the first branch whose condition
is true, or the else branch when none is — and the lines of every other
branch are suppressed; when no condition is true and there is no else branch,
nothing is emitted. -/
theorem cond_machine_emits_selected_branch (b0 : Bool) (ls0 : List Str)
    (rest : List (Bool × List Str)) (elseBr : Option (List Str)) :
    (condRun CondState.init (buildSeq b0 ls0 rest elseBr)).2 =
      pickBranch b0 ls0 rest elseBr := by
  show (condRun CondState.init
      (CondItem.cif b0 :: (ls0.map CondItem.text ++ chainItems rest elseBr))).2 = _
  simp only [condRun, condIf_init]
  rw [condRun_texts]
  simp only [condEmits_csC]
  rw [condRun_chain rest elseBr (!b0) b0]
  cases b0 with
  | true => simp [selChain_true, pickBranch]
  | false => simp [selChain_false, pickBranch]

/-- C4 counterexample: for `if false … endif` with no else branch, the machine
emits nothing at all, so it is not the case that exactly one branch's lines
are emitted: the only branch's lines `["x"]` do not appear. -/
theorem cond_machine_no_branch_emitted :
    (condRun CondState.init (buildSeq false [str "x"] [] none)).2 = [] ∧
    (condRun CondState.init (buildSeq false [str "x"] [] none)).2 ≠ [str "x"] := by
  decide

/-! ### String-scanning lemmas for the round-trip claims (C1, C8) -/

/-- A non-empty prefix pins down the head of the larger list. -/
theorem head_of_isPrefixOf (x : Char) (xs l : Str) (h : ((x :: xs).isPrefixOf l) = true) :
    ∃ t, l = x :: t ∧ xs.isPrefixOf t = true := by
  cases l with
  | nil => simp [List.isPrefixOf] at h
  | cons c t =>
    simp only [List.isPrefixOf, Bool.and_eq_true, beq_iff_eq] at h
    exact ⟨t, by rw [h.1], h.2⟩

/-- No pattern whose head is missing from a string matches anywhere in it. -/
theorem no_prefix_head_notin (x : Char) (xs s : Str) (h : ∀ c ∈ s, c ≠ x) :
    ∀ j, ((x :: xs).isPrefixOf (s.drop j)) = false := by
  intro j
  cases hpre : (x :: xs).isPrefixOf (s.drop j) with
  | false => rfl
  | true =>
    obtain ⟨t, ht, _⟩ := head_of_isPrefixOf x xs (s.drop j) hpre
    have hx : x ∈ s := List.mem_of_mem_drop (ht ▸ List.mem_cons_self x t)
    exact absurd rfl (h x hx)

/-- `find` of `>>` over `N ++ >>` when `N` is free of `>`. -/
theorem sfindAux_gtfree (N : Str) (hN : ∀ c ∈ N, c ≠ '>') :
    ∀ i, sfindAux (str ">>") (N ++ str ">>") i = some (i + N.length) := by
  induction N with
  | nil =>
    intro i
    rfl
  | cons c t ih =>
    intro i
    have hc : c ≠ '>' := hN c (List.mem_cons_self c t)
    have hpre : ((str ">>").isPrefixOf (c :: (t ++ str ">>"))) = false := by
      cases hp : (str ">>").isPrefixOf (c :: (t ++ str ">>")) with
      | false => rfl
      | true =>
        obtain ⟨t', ht', _⟩ := head_of_isPrefixOf '>' (str ">") (c :: (t ++ str ">>")) hp
        exact absurd (List.head_eq_of_cons_eq ht') hc
    show sfindAux (str ">>") (c :: (t ++ str ">>")) i = some (i + (c :: t).length)
    rw [sfindAux, hpre]
    simp only [Bool.false_eq_true, if_false]
    rw [ih (fun x hx => hN x (List.mem_cons_of_mem c hx)) (i + 1)]
    simp only [List.length_cons, Option.some.injEq]
    omega

/-- The first closing delimiter of `<<N>>` sits right after the name. -/
theorem sfind_token_line (N : Str) (hN : ∀ c ∈ N, c ≠ '>') :
    sfind (str "<<" ++ N ++ str ">>") (str ">>") = ((2 + N.length : Nat) : Int) := by
  unfold sfind
  have h0 : sfindAux (str ">>") (str "<<" ++ N ++ str ">>") 0 = some (2 + N.length) := by
    show sfindAux (str ">>") ('<' :: ('<' :: (N ++ str ">>"))) 0 = some (2 + N.length)
    rw [sfindAux]
    rw [show ((str ">>").isPrefixOf ('<' :: ('<' :: (N ++ str ">>")))) = false from by
      cases hp : (str ">>").isPrefixOf ('<' :: ('<' :: (N ++ str ">>"))) with
      | false => rfl
      | true =>
        obtain ⟨t', ht', _⟩ := head_of_isPrefixOf '>' (str ">") _ hp
        exact absurd (List.head_eq_of_cons_eq ht').symm (by decide)]
    simp only [Bool.false_eq_true, if_false]
    rw [sfindAux]
    rw [show ((str ">>").isPrefixOf ('<' :: (N ++ str ">>"))) = false from by
      cases hp : (str ">>").isPrefixOf ('<' :: (N ++ str ">>")) with
      | false => rfl
      | true =>
        obtain ⟨t', ht', _⟩ := head_of_isPrefixOf '>' (str ">") _ hp
        exact absurd (List.head_eq_of_cons_eq ht').symm (by decide)]
    simp only [Bool.false_eq_true, if_false]
    rw [sfindAux_gtfree N hN 2]
  rw [h0]

/-- The downward `rfind` scan lands on index 0 when nothing later matches. -/
theorem srfindDown_zero (s sub : Str) (hi : Nat)
    (h0 : sub.length ≤ hi ∧ sub.isPrefixOf s)
    (hk : ∀ k, 1 ≤ k → (sub.isPrefixOf (s.drop k)) = false) :
    ∀ k, srfindDown s sub hi k = some 0 := by
  intro k
  induction k with
  | zero => simp [srfindDown, h0.1, h0.2]
  | succ n ih =>
    rw [srfindDown]
    rw [if_neg]
    · exact ih
    · rintro ⟨-, hpre⟩
      rw [hk (n + 1) (by omega)] at hpre
      exact Bool.false_ne_true hpre

/-- `rfind('<<', 0, p2)` over `<<N>>` finds only the leading delimiter. -/
theorem srfindIn_token_line (N : Str) (hN : ∀ c ∈ N, c ≠ '<') :
    srfindIn (str "<<" ++ N ++ str ">>") (str "<<") (2 + N.length) = 0 := by
  have hchars : ∀ c ∈ N ++ str ">>", c ≠ '<' := by
    intro c hc
    rcases List.mem_append.mp hc with hcN | hcE
    · exact hN c hcN
    · simp [str] at hcE
      rw [hcE]
      decide
  have hk : ∀ k, 1 ≤ k →
      ((str "<<").isPrefixOf ((str "<<" ++ N ++ str ">>").drop k)) = false := by
    intro k hk1
    match k, hk1 with
    | 1, _ =>
      show ((str "<<").isPrefixOf ('<' :: (N ++ str ">>"))) = false
      cases hp : (str "<<").isPrefixOf ('<' :: (N ++ str ">>")) with
      | false => rfl
      | true =>
        exfalso
        have hp' : (('<' :: str "<").isPrefixOf ('<' :: (N ++ str ">>"))) = true := hp
        obtain ⟨t', ht', hrest⟩ := head_of_isPrefixOf '<' (str "<") _ hp'
        have ht'' : t' = N ++ str ">>" := (List.tail_eq_of_cons_eq ht').symm
        rw [ht''] at hrest
        have hrest' : (('<' :: ([] : Str)).isPrefixOf (N ++ str ">>")) = true := hrest
        obtain ⟨t2, ht2, -⟩ := head_of_isPrefixOf '<' [] _ hrest'
        have hmem : '<' ∈ N ++ str ">>" := ht2 ▸ List.mem_cons_self '<' t2
        exact absurd rfl (hchars '<' hmem)
    | (j + 2), _ =>
      show ((str "<<").isPrefixOf ((N ++ str ">>").drop j)) = false
      exact no_prefix_head_notin '<' (str "<") (N ++ str ">>") hchars j
  have h2len : (str "<<").length ≤ 2 + N.length := by
    have h2 : (str "<<").length = 2 := rfl
    omega
  have hpre0 : ((str "<<").isPrefixOf (str "<<" ++ N ++ str ">>")) = true := by
    rw [List.isPrefixOf_iff_prefix]
    exact List.prefix_append (str "<<") (N ++ str ">>")
  have hsd := srfindDown_zero (str "<<" ++ N ++ str ">>") (str "<<") (2 + N.length)
    ⟨h2len, hpre0⟩ hk ((str "<<" ++ N ++ str ">>").length)
  unfold srfindIn
  rw [hsd]
  rfl

/-- The length of the delimited line `<<N>>`. -/
theorem token_line_length (N : Str) : (str "<<" ++ N ++ str ">>").length = N.length + 4 := by
  rw [List.length_append, List.length_append]
  rw [show (str "<<").length = 2 from rfl, show (str ">>").length = 2 from rfl]
  omega

/-- `pyIdx` on a non-negative bound clamps it to the length. -/
theorem pyIdx_nonneg (len : Nat) (x : Int) (hx : 0 ≤ x) :
    pyIdx len x = min x.toNat len := by
  show (if (if x < 0 then x + (len : Int) else x) < 0 then 0
        else min (if x < 0 then x + (len : Int) else x).toNat len) = min x.toNat len
  rw [if_neg (by omega : ¬ x < 0)]
  rw [if_neg (by omega : ¬ x < 0)]

/-- `pyIdx` on a recoverable negative bound counts back from the end. -/
theorem pyIdx_neg (len : Nat) (x : Int) (hx : x < 0) (hx2 : 0 ≤ x + (len : Int)) :
    pyIdx len x = min (x + (len : Int)).toNat len := by
  show (if (if x < 0 then x + (len : Int) else x) < 0 then 0
        else min (if x < 0 then x + (len : Int) else x).toNat len) =
      min (x + (len : Int)).toNat len
  rw [if_pos hx]
  rw [if_neg (by omega : ¬ x + (len : Int) < 0)]

/-- `pySlice` with both normalized bounds exposed. -/
theorem pySlice_as_dropTake (s : Str) (a b : Int) :
    pySlice s a b = (s.drop (pyIdx s.length a)).take (pyIdx s.length b - pyIdx s.length a) :=
  rfl

/-- `line[p1 : p2 + l2]` with `p1 = 0` and `p2 + l2 = len` is the whole line. -/
theorem pySlice_token_full (N : Str) :
    pySlice (str "<<" ++ N ++ str ">>") 0 (((2 + N.length : Nat) : Int) + ((2 : Nat) : Int)) =
      str "<<" ++ N ++ str ">>" := by
  rw [pySlice_as_dropTake]
  rw [pyIdx_nonneg ((str "<<" ++ N ++ str ">>").length) 0 (by omega)]
  rw [pyIdx_nonneg ((str "<<" ++ N ++ str ">>").length)
    (((2 + N.length : Nat) : Int) + ((2 : Nat) : Int)) (by omega)]
  rw [token_line_length]
  rw [show ((0 : Int).toNat) = 0 from rfl]
  rw [show (((2 + N.length : Nat) : Int) + ((2 : Nat) : Int)).toNat = N.length + 4 from by omega]
  rw [show min 0 (N.length + 4) = 0 from by omega]
  rw [show min (N.length + 4) (N.length + 4) = N.length + 4 from by omega]
  rw [List.drop_zero, Nat.sub_zero]
  exact List.take_of_length_le (by rw [token_line_length])

/-- `token[l1 : -l2]` strips the delimiters back off the name. -/
theorem pySlice_token_key (N : Str) :
    pySlice (str "<<" ++ N ++ str ">>") ((2 : Nat) : Int) (-((2 : Nat) : Int)) = N := by
  rw [pySlice_as_dropTake]
  rw [pyIdx_nonneg ((str "<<" ++ N ++ str ">>").length) ((2 : Nat) : Int) (by omega)]
  rw [pyIdx_neg ((str "<<" ++ N ++ str ">>").length) (-((2 : Nat) : Int)) (by omega)
    (by rw [token_line_length]; omega)]
  rw [token_line_length]
  rw [show (((2 : Nat) : Int)).toNat = 2 from rfl]
  rw [show ((-((2 : Nat) : Int)) + ((N.length + 4 : Nat) : Int)).toNat = N.length + 2 from by
    omega]
  rw [show min 2 (N.length + 4) = 2 from by omega]
  rw [show min (N.length + 2) (N.length + 4) = N.length + 2 from by omega]
  rw [show N.length + 2 - 2 = N.length from by omega]
  show ((N ++ str ">>").take N.length) = N
  exact List.take_left N (str ">>")

/-- A name containing no `(` never parses as a macro call. -/
theorem isCallForm_no_paren (N : Str) (h : ∀ c ∈ N, c ≠ '(') : isCallForm N = false := by
  unfold isCallForm
  have hany : ((List.range N.length).any (fun p =>
      decide (N.getD p ' ' = '(') && decide (p + 2 ≤ N.length) &&
      prefixOkCall (N.take p) &&
      !(((N.drop (p + 1)).take (N.length - 1 - (p + 1))).contains '\n'))) = false := by
    rw [List.any_eq_false]
    intro p hp
    have hlt : p < N.length := List.mem_range.mp hp
    have hval : (N[p]?.getD ' ') ∈ N := by
      rw [List.getElem?_eq_getElem hlt, Option.getD_some]
      exact List.getElem_mem hlt
    simp [h _ hval]
  rw [hany, Bool.and_false]

/-- Replacing a whole non-empty line by `rep` yields `rep`. -/
theorem replaceFirst_self (l rep : Str) (h : l ≠ []) : replaceFirst l l rep = rep := by
  cases l with
  | nil => exact absurd rfl h
  | cons c t =>
    show replaceFirstAux c t rep (c :: t) = rep
    rw [replaceFirstAux]
    rw [if_pos (by simp [List.isPrefixOf_iff_prefix])]
    simp

/-- A failed scan excludes a match at every offset. -/
theorem sfindAux_none_no_prefix (sub : Str) :
    ∀ (s : Str) (i), sfindAux sub s i = none →
      ∀ j, (sub.isPrefixOf (s.drop j)) = false := by
  intro s
  induction s with
  | nil =>
    intro i h j
    rw [sfindAux] at h
    rw [List.drop_nil]
    by_cases hp : sub.isPrefixOf ([] : Str) = true
    · rw [hp] at h
      simp at h
    · exact Bool.eq_false_iff.mpr hp
  | cons c t ih =>
    intro i h j
    rw [sfindAux] at h
    by_cases hp : sub.isPrefixOf (c :: t) = true
    · rw [hp] at h
      simp at h
    · rw [Bool.eq_false_iff.mpr hp] at h
      simp only [Bool.false_eq_true, if_false] at h
      cases j with
      | zero => exact Bool.eq_false_iff.mpr hp
      | succ j => exact ih (i + 1) h j

/-- `containsSub = false` excludes a match at every offset. -/
theorem no_prefix_of_not_containsSub (s sub : Str) (h : containsSub s sub = false) :
    ∀ j, (sub.isPrefixOf (s.drop j)) = false := by
  unfold containsSub at h
  cases hfind : sfindAux sub s 0 with
  | some i => rw [hfind] at h; simp at h
  | none => exact sfindAux_none_no_prefix sub s 0 hfind

/-- `containsSub = false` means `find` returns `-1`. -/
theorem sfind_eq_neg (s sub : Str) (h : containsSub s sub = false) :
    sfind s sub = -1 := by
  unfold containsSub at h
  unfold sfind
  cases hfind : sfindAux sub s 0 with
  | some i => rw [hfind] at h; simp at h
  | none => rfl

/-- `replace` leaves a string without any occurrence of the pattern alone. -/
theorem replaceAllAux_id (p : Char) (ps rep : Str) :
    ∀ (fuel : Nat) (s : Str), (∀ j, ((p :: ps).isPrefixOf (s.drop j)) = false) →
      replaceAllAux p ps rep fuel s = s := by
  intro fuel
  induction fuel with
  | zero =>
    intro s h
    cases s <;> rfl
  | succ k ih =>
    intro s h
    cases s with
    | nil => rfl
    | cons c t =>
      have h0 : ((p :: ps).isPrefixOf (c :: t)) = false := h 0
      rw [replaceAllAux, h0]
      simp only [Bool.false_eq_true, if_false]
      rw [ih t (fun j => h (j + 1))]

/-- `replace` with a pattern that does not occur is the identity. -/
theorem replaceAll_id (s pat rep : Str) (hpat : pat ≠ [])
    (h : ∀ j, (pat.isPrefixOf (s.drop j)) = false) : replaceAll s pat rep = s := by
  cases pat with
  | nil => exact absurd rfl hpat
  | cons p ps =>
    show replaceAllAux p ps rep s.length s = s
    exact replaceAllAux_id p ps rep s.length s h

/-- A `>`-free prefix closed by `>>` determines the string before the
delimiter. -/
theorem append_close_inj (P : Str) :
    ∀ (N : Str), (∀ c ∈ P, c ≠ '>') → (∀ c ∈ N, c ≠ '>') →
      ((P ++ str ">>").isPrefixOf (N ++ str ">>")) = true → P = N := by
  induction P with
  | nil =>
    intro N _ hN h
    cases N with
    | nil => rfl
    | cons n t =>
      exfalso
      have h' : (('>' :: str ">").isPrefixOf (n :: (t ++ str ">>"))) = true := h
      obtain ⟨t', ht', -⟩ := head_of_isPrefixOf '>' (str ">") _ h'
      exact absurd (List.head_eq_of_cons_eq ht') (hN n (List.mem_cons_self n t))
  | cons p P ih =>
    intro N hP hN h
    cases N with
    | nil =>
      exfalso
      have h' : ((p :: (P ++ str ">>")).isPrefixOf ('>' :: str ">")) = true := h
      obtain ⟨t', ht', -⟩ := head_of_isPrefixOf p (P ++ str ">>") _ h'
      exact absurd (List.head_eq_of_cons_eq ht').symm (hP p (List.mem_cons_self p P))
    | cons n t =>
      have h' : ((p :: (P ++ str ">>")).isPrefixOf (n :: (t ++ str ">>"))) = true := h
      obtain ⟨t', ht', hrest⟩ := head_of_isPrefixOf p (P ++ str ">>") _ h'
      have hpn : p = n := (List.head_eq_of_cons_eq ht').symm
      have ht'' : t' = t ++ str ">>" := (List.tail_eq_of_cons_eq ht').symm
      rw [ht''] at hrest
      have := ih t (fun c hc => hP c (List.mem_cons_of_mem p hc))
        (fun c hc => hN c (List.mem_cons_of_mem n hc)) hrest
      rw [hpn, this]

/-- A delimited token `<<P>>` built from a different delimiter-free name `P`
occurs nowhere in the line `<<N>>`. -/
theorem no_other_token (P N : Str)
    (hP : ∀ c ∈ P, c ≠ '<' ∧ c ≠ '>') (hN : ∀ c ∈ N, c ≠ '<' ∧ c ≠ '>')
    (hne : N ≠ P) :
    ∀ j, ((str "<<" ++ P ++ str ">>").isPrefixOf ((str "<<" ++ N ++ str ">>").drop j)) = false := by
  intro j
  match j with
  | 0 =>
    cases hp : (str "<<" ++ P ++ str ">>").isPrefixOf ((str "<<" ++ N ++ str ">>").drop 0) with
    | false => rfl
    | true =>
      exfalso
      have h' : (('<' :: ('<' :: (P ++ str ">>"))).isPrefixOf
          ('<' :: ('<' :: (N ++ str ">>")))) = true := hp
      obtain ⟨t1, ht1, h1⟩ := head_of_isPrefixOf '<' ('<' :: (P ++ str ">>")) _ h'
      rw [(List.tail_eq_of_cons_eq ht1).symm] at h1
      obtain ⟨t2, ht2, h2⟩ := head_of_isPrefixOf '<' (P ++ str ">>") _ h1
      rw [(List.tail_eq_of_cons_eq ht2).symm] at h2
      exact hne (append_close_inj P N (fun c hc => (hP c hc).2)
        (fun c hc => (hN c hc).2) h2).symm
  | 1 =>
    cases hp : (str "<<" ++ P ++ str ">>").isPrefixOf ((str "<<" ++ N ++ str ">>").drop 1) with
    | false => rfl
    | true =>
      exfalso
      have h' : (('<' :: ('<' :: (P ++ str ">>"))).isPrefixOf
          ('<' :: (N ++ str ">>"))) = true := hp
      obtain ⟨t1, ht1, h1⟩ := head_of_isPrefixOf '<' ('<' :: (P ++ str ">>")) _ h'
      rw [(List.tail_eq_of_cons_eq ht1).symm] at h1
      obtain ⟨t2, ht2, -⟩ := head_of_isPrefixOf '<' (P ++ str ">>") _ h1
      cases N with
      | nil => exact absurd (List.head_eq_of_cons_eq ht2).symm (by decide)
      | cons a as =>
        exact absurd (List.head_eq_of_cons_eq ht2)
          ((hN a (List.mem_cons_self a as)).1)
  | (k + 2) =>
    show ((str "<<" ++ P ++ str ">>").isPrefixOf ((N ++ str ">>").drop k)) = false
    have h' : ∀ c ∈ N ++ str ">>", c ≠ '<' := by
      intro c hc
      rcases List.mem_append.mp hc with hcN | hcE
      · exact (hN c hcN).1
      · simp [str] at hcE
        rw [hcE]
        decide
    exact no_prefix_head_notin '<' ('<' :: (P ++ str ">>")) (N ++ str ">>") h' k

/-- A delimited line is never empty. -/
theorem token_line_ne_nil (N : Str) : (str "<<" ++ N ++ str ">>") ≠ [] := by
  intro h
  have h2 := congrArg List.length h
  rw [token_line_length, List.length_nil] at h2
  omega

/-- Replacing a whole delimited line is just the replacement. -/
theorem replaceFirst_token_line (N rep : Str) :
    replaceFirst (str "<<" ++ N ++ str ">>") (str "<<" ++ N ++ str ">>") rep = rep :=
  replaceFirst_self _ rep (token_line_ne_nil N)

/-- Assigning into an empty dict yields the one-entry dict. -/
theorem updateAssoc_nil (k v : Str) : updateAssoc [] k v = [(k, v)] := rfl

/-- Looking up the key just stored at the head of a dict. -/
theorem lookupAssoc_cons_self (t : List (Str × Str)) (k v : Str) :
    lookupAssoc ((k, v) :: t) k = some v := by
  unfold lookupAssoc
  simp [List.find?]

/-- `SetTimestamps` never moves the opening delimiter. -/
theorem SetTimestamps_MACRO_START (env : Env) (st : G) (name : Str) :
    (SetTimestamps env st name).MACRO_START = st.MACRO_START := by
  simp only [SetTimestamps, defineStore]
  split_ifs <;> rfl

/-- `SetTimestamps` never moves the closing delimiter. -/
theorem SetTimestamps_MACRO_END (env : Env) (st : G) (name : Str) :
    (SetTimestamps env st name).MACRO_END = st.MACRO_END := by
  simp only [SetTimestamps, defineStore]
  split_ifs <;> rfl

/-- `SetTimestamps` never touches the entity flag. -/
theorem SetTimestamps_entities (env : Env) (st : G) (name : Str) :
    (SetTimestamps env st name).entities = st.entities := by
  simp only [SetTimestamps, defineStore]
  split_ifs <;> rfl

/-- With no timestamp format configured and an empty file name,
`SetTimestamps` defines nothing. -/
theorem SetTimestamps_defines_of_stamp (env : Env) (st : G) (hstamp : st.stamp = []) :
    (SetTimestamps env st []).defines = st.defines := by
  simp only [SetTimestamps, defineStore]
  rw [if_neg (show ¬(st.stamp ≠ []) from by simp [hstamp])]
  rw [if_neg (show ¬(st.mstamp ≠ [] ∧ ([] : Str) ≠ []) from by simp)]

/-- For a non-delimiter configuration key and a state with no timestamp
format configured, `applyConfig` leaves the delimiters, the entity flag and
the macro table unchanged. -/
theorem applyConfig_plain (env : Env) (st : G) (key value : Str)
    (hO : key ≠ str "OPEN_DELIMITER") (hC : key ≠ str "CLOSE_DELIMITER")
    (hstamp : st.stamp = []) :
    (applyConfig env st key value).MACRO_START = st.MACRO_START ∧
    (applyConfig env st key value).MACRO_END = st.MACRO_END ∧
    (applyConfig env st key value).entities = st.entities ∧
    (applyConfig env st key value).defines = st.defines := by
  refine ⟨?_, ?_, ?_, ?_⟩
  · simp only [applyConfig]
    simp only [apply_ite (fun s : G => s.MACRO_START), SetTimestamps_MACRO_START,
      ite_self, if_neg hO]
  · simp only [applyConfig]
    simp only [apply_ite (fun s : G => s.MACRO_END), SetTimestamps_MACRO_END,
      ite_self, if_neg hC]
  · simp only [applyConfig]
    simp only [apply_ite (fun s : G => s.entities), SetTimestamps_entities, ite_self]
  · simp only [applyConfig]
    simp only [apply_ite (fun s : G => s.defines), apply_ite (fun s : G => s.stamp),
      SetTimestamps_defines_of_stamp, ite_self, hstamp]

/-- `Define` on a non-reserved, non-delimiter key over a state without
timestamp formats: the delimiters and entity flag survive, and the macro
table gains exactly the sentinel-protected binding. -/
theorem Define_plain (env : Env) (st : G) (key value : Str)
    (h1 : key ≠ str "__PYTHON__") (h2 : key ≠ str "__SYSTEM__")
    (h3 : key ≠ str "__NEWLINE__") (h4 : key ≠ str "__TAB__")
    (hO : key ≠ str "OPEN_DELIMITER") (hC : key ≠ str "CLOSE_DELIMITER")
    (hstamp : st.stamp = []) :
    (Define env st key value).MACRO_START = st.MACRO_START ∧
    (Define env st key value).MACRO_END = st.MACRO_END ∧
    (Define env st key value).entities = st.entities ∧
    (Define env st key value).defines =
      updateAssoc st.defines key (if value = [] then BLANK else value) := by
  obtain ⟨hA, hB, hE, hD⟩ := applyConfig_plain env st key value hO hC hstamp
  unfold Define
  rw [if_neg (by simp [h1, h2, h3, h4])]
  exact ⟨by simp [defineStore, hA], by simp [defineStore, hB],
    by simp [defineStore, hE], by simp [defineStore, hD]⟩

/-- One iteration of the delimiter scan on a single plain-name token line
`<<N>>`: it resolves the token and recurses on the substituted line, warning
exactly when the resolved value is empty and mapping the blank sentinel to the
empty string. -/
theorem substLoop_plain_step (env : Env) (n : Nat) (st : G) (N W : Str)
    (hMS : st.MACRO_START = str "<<") (hME : st.MACRO_END = str ">>")
    (hname : plainName N)
    (h1 : N ≠ str "__PYTHON__") (h2 : N ≠ str "__SYSTEM__")
    (hW : GetValue st N = W) (hWmark : findMarkerDigit W = none) :
    substLoop env (n + 1) st (str "<<" ++ N ++ str ">>") [] [] =
      substLoop env n (if W = [] then pushWarn st (str "undefined name " ++ N) else st)
        (if W = BLANK then [] else W) (if W = BLANK then [] else W) [] := by
  have hNlt : ∀ c ∈ N, c ≠ '<' := fun c hc => (hname c hc).1
  have hNgt : ∀ c ∈ N, c ≠ '>' := fun c hc => (hname c hc).2.1
  have hNpar : ∀ c ∈ N, c ≠ '(' := fun c hc => (hname c hc).2.2
  simp only [substLoop, hMS, hME,
    show (str "<<").length = 2 from rfl, show (str ">>").length = 2 from rfl,
    sfind_token_line N hNgt,
    if_pos (show ((2 + N.length : Nat) : Int) ≥ ((2 : Nat) : Int) from by omega),
    show (((2 + N.length : Nat) : Int)).toNat = 2 + N.length from by omega,
    srfindIn_token_line N hNlt, pySlice_token_full N, pySlice_token_key N,
    isCallForm_no_paren N hNpar, Bool.false_eq_true, ite_false,
    h1, h2, List.enum_nil, List.foldl_nil, hW, hWmark,
    or_self, not_false_eq_true, and_true,
    replaceFirst_token_line]

/-- When the line holds no closing delimiter, the delimiter scan returns it
unchanged together with the current state. -/
theorem substLoop_done (env : Env) (n : Nat) (st : G) (line value0 : Str)
    (al : List Str) (hME : st.MACRO_END = str ">>")
    (hc : containsSub line (str ">>") = false) :
    substLoop env (n + 1) st line value0 al = SOut.ok st line := by
  simp only [substLoop, hME, sfind_eq_neg line (str ">>") hc]
  rw [if_neg (show ¬ ((-1 : Int) ≥ (st.MACRO_START.length : Int)) from by omega)]

/-- `Substitute` on the single-token line `<<N>>` in a state with the default
delimiters, entity escaping off and a plain (delimiter- and paren-free,
non-pseudo, non-formatting) name `N` resolving to `W`: the result is the
resolved value with the blank sentinel mapped to the empty string, and the
undefined-name warning fires exactly when `W` is the empty string. -/
theorem Substitute_single_token (env : Env) (fuel : Nat) (st : G) (N W : Str)
    (hMS : st.MACRO_START = str "<<") (hME : st.MACRO_END = str ">>")
    (hent : st.entities = false)
    (hname : plainName N)
    (h1 : N ≠ str "__PYTHON__") (h2 : N ≠ str "__SYSTEM__")
    (h3 : N ≠ str "__NEWLINE__") (h4 : N ≠ str "__TAB__")
    (hW : GetValue st N = W) (hWmark : findMarkerDigit W = none)
    (hWclose : containsSub (if W = BLANK then [] else W) (str ">>") = false)
    (hWnl : containsSub (if W = BLANK then [] else W) (str "__NEWLINE__") = false)
    (hWtab : containsSub (if W = BLANK then [] else W) (str "__TAB__") = false) :
    Substitute env (fuel + 2) st (str "<<" ++ N ++ str ">>") =
      SOut.ok (if W = [] then pushWarn st (str "undefined name " ++ N) else st)
        (if W = BLANK then [] else W) := by
  have hN2 : ∀ c ∈ N, c ≠ '<' ∧ c ≠ '>' := fun c hc => ⟨(hname c hc).1, (hname c hc).2.1⟩
  have hME1 : (if W = [] then pushWarn st (str "undefined name " ++ N) else st).MACRO_END =
      str ">>" := by
    split_ifs <;> simp [pushWarn, hME]
  simp only [Substitute, hent, Bool.false_eq_true, ite_false, hMS, hME]
  rw [replaceAll_id (str "<<" ++ N ++ str ">>") (str "<<" ++ str "__NEWLINE__" ++ str ">>")
    (str "__NEWLINE__") (token_line_ne_nil (str "__NEWLINE__"))
    (no_other_token (str "__NEWLINE__") N (by decide) hN2 h3)]
  rw [replaceAll_id (str "<<" ++ N ++ str ">>") (str "<<" ++ str "__TAB__" ++ str ">>")
    (str "__TAB__") (token_line_ne_nil (str "__TAB__"))
    (no_other_token (str "__TAB__") N (by decide) hN2 h4)]
  rw [show fuel + 2 = (fuel + 1) + 1 from rfl]
  rw [substLoop_plain_step env (fuel + 1) st N W hMS hME hname h1 h2 hW hWmark]
  rw [substLoop_done env fuel
    (if W = [] then pushWarn st (str "undefined name " ++ N) else st)
    (if W = BLANK then [] else W) (if W = BLANK then [] else W) [] hME1 hWclose]
  show SOut.ok (if W = [] then pushWarn st (str "undefined name " ++ N) else st)
      (replaceAll (replaceAll (if W = BLANK then [] else W) (str "__NEWLINE__") (str "\n"))
        (str "__TAB__") (str "\t")) =
    SOut.ok (if W = [] then pushWarn st (str "undefined name " ++ N) else st)
      (if W = BLANK then [] else W)
  rw [replaceAll_id (if W = BLANK then [] else W) (str "__NEWLINE__") (str "\n")
    (by decide) (no_prefix_of_not_containsSub (if W = BLANK then [] else W)
      (str "__NEWLINE__") hWnl)]
  rw [replaceAll_id (if W = BLANK then [] else W) (str "__TAB__") (str "\t")
    (by decide) (no_prefix_of_not_containsSub (if W = BLANK then [] else W)
      (str "__TAB__") hWtab)]

/-- C1 counterexample: the round-trip fails as stated.  `X` is a non-reserved
name and `__TAB__` a non-empty value, yet `Define(X, __TAB__)` followed by
`Substitute("<<X>>")` returns the tab character, not the stored value: the
final formatting-token restoration pass of `Substitute` rewrites the
resolved value. -/
theorem define_substitute_roundtrip_cex :
    Substitute env0 3 (Define env0 initState (str "X") (str "__TAB__")) (str "<<X>>") =
      SOut.ok (Define env0 initState (str "X") (str "__TAB__")) (str "\t") ∧
    str "\t" ≠ str "__TAB__" := by
  decide

/-- C1 (amended): Define/Substitute round-trip.  For a macro name `N` free of
delimiter and parenthesis characters that is neither a reserved system macro
nor a delimiter configuration key, and a non-empty value `V` that is not the
blank sentinel and contains no closing delimiter, no formatting token
(`__NEWLINE__` / `__TAB__`) and no leftover argument marker, `Define(N, V)`
followed by `Substitute` on the line `<<N>>` yields exactly `V`. -/
theorem define_substitute_roundtrip (env : Env) (fuel : Nat) (N V : Str)
    (hname : plainName N)
    (h1 : N ≠ str "__PYTHON__") (h2 : N ≠ str "__SYSTEM__")
    (h3 : N ≠ str "__NEWLINE__") (h4 : N ≠ str "__TAB__")
    (hO : N ≠ str "OPEN_DELIMITER") (hC : N ≠ str "CLOSE_DELIMITER")
    (hV : V ≠ []) (hVB : V ≠ BLANK)
    (hVclose : containsSub V (str ">>") = false)
    (hVnl : containsSub V (str "__NEWLINE__") = false)
    (hVtab : containsSub V (str "__TAB__") = false)
    (hVmark : findMarkerDigit V = none) :
    Substitute env (fuel + 2) (Define env initState N V) (str "<<" ++ N ++ str ">>") =
      SOut.ok (Define env initState N V) V := by
  obtain ⟨hA, hB, hE, hD⟩ := Define_plain env initState N V h1 h2 h3 h4 hO hC rfl
  have hW : GetValue (Define env initState N V) N = V := by
    unfold GetValue
    rw [hD, if_neg hV]
    rw [show initState.defines = ([] : List (Str × Str)) from rfl]
    rw [updateAssoc_nil, lookupAssoc_cons_self]
  have h := Substitute_single_token env fuel (Define env initState N V) N V
    (by rw [hA]; rfl) (by rw [hB]; rfl) (by rw [hE]; rfl) hname h1 h2 h3 h4 hW hVmark
    (by rw [if_neg hVB]; exact hVclose) (by rw [if_neg hVB]; exact hVnl)
    (by rw [if_neg hVB]; exact hVtab)
  rw [h, if_neg hV, if_neg hVB]

/-- Witness for C1: the round-trip at the concrete name `NAME` and value
`value`. -/
theorem define_substitute_roundtrip_witness :
    Substitute env0 2 (Define env0 initState (str "NAME") (str "value"))
      (str "<<" ++ str "NAME" ++ str ">>") =
      SOut.ok (Define env0 initState (str "NAME") (str "value")) (str "value") :=
  define_substitute_roundtrip env0 0 (str "NAME") (str "value")
    (by unfold plainName; decide) (by decide) (by decide) (by decide) (by decide)
    (by decide) (by decide) (by decide) (by decide) (by decide)
    (by decide) (by decide) (by decide)

/-- C8: the blank-sentinel behaviour of empty macros, and the undefined-name
warning discipline.  (a) A name defined with the empty value substitutes to
the empty string — not the literal sentinel text — with no warning and an
unchanged state; (b) an undefined ordinary name substitutes to the empty
string and logs the undefined-name warning; (c) the two pseudo-macros
resolve through their oracles with no warning even when the result is
empty. -/
theorem blank_macro_and_warning_behavior (env : Env) (fuel : Nat) (N : Str)
    (hname : plainName N)
    (h1 : N ≠ str "__PYTHON__") (h2 : N ≠ str "__SYSTEM__")
    (h3 : N ≠ str "__NEWLINE__") (h4 : N ≠ str "__TAB__")
    (hO : N ≠ str "OPEN_DELIMITER") (hC : N ≠ str "CLOSE_DELIMITER") :
    Substitute env (fuel + 2) (Define env initState N []) (str "<<" ++ N ++ str ">>") =
      SOut.ok (Define env initState N []) [] ∧
    Substitute env (fuel + 2) initState (str "<<" ++ N ++ str ">>") =
      SOut.ok (pushWarn initState (str "undefined name " ++ N)) [] ∧
    Substitute env0 2 initState (str "<<" ++ str "__PYTHON__(x)" ++ str ">>") =
      SOut.ok initState [] ∧
    Substitute env0 2 initState (str "<<" ++ str "__SYSTEM__(x)" ++ str ">>") =
      SOut.ok initState [] := by
  refine ⟨?_, ?_, by decide, by decide⟩
  · obtain ⟨hA, hB, hE, hD⟩ := Define_plain env initState N [] h1 h2 h3 h4 hO hC rfl
    have hW : GetValue (Define env initState N []) N = BLANK := by
      unfold GetValue
      rw [hD, if_pos rfl]
      rw [show initState.defines = ([] : List (Str × Str)) from rfl]
      rw [updateAssoc_nil, lookupAssoc_cons_self]
    have h := Substitute_single_token env fuel (Define env initState N []) N BLANK
      (by rw [hA]; rfl) (by rw [hB]; rfl) (by rw [hE]; rfl) hname h1 h2 h3 h4 hW (by decide)
      (by decide) (by decide) (by decide)
    rw [h, if_neg (by decide : BLANK ≠ ([] : Str)), if_pos rfl]
  · have hW : GetValue initState N = [] := by
      unfold GetValue
      rw [show initState.defines = ([] : List (Str × Str)) from rfl]
      rfl
    have h := Substitute_single_token env fuel initState N []
      rfl rfl rfl hname h1 h2 h3 h4 hW (by decide)
      (by decide) (by decide) (by decide)
    rw [h, if_pos rfl, if_neg (by decide : ([] : Str) ≠ BLANK)]

/-- Witness for C8 at the concrete ordinary name `M`. -/
theorem blank_macro_and_warning_behavior_witness :
    (Substitute env0 2 (Define env0 initState (str "M") []) (str "<<" ++ str "M" ++ str ">>") =
      SOut.ok (Define env0 initState (str "M") []) [] ∧
    Substitute env0 2 initState (str "<<" ++ str "M" ++ str ">>") =
      SOut.ok (pushWarn initState (str "undefined name " ++ str "M")) [] ∧
    Substitute env0 2 initState (str "<<" ++ str "__PYTHON__(x)" ++ str ">>") =
      SOut.ok initState [] ∧
    Substitute env0 2 initState (str "<<" ++ str "__SYSTEM__(x)" ++ str ">>") =
      SOut.ok initState []) :=
  blank_macro_and_warning_behavior env0 0 (str "M")
    (by unfold plainName; decide) (by decide) (by decide) (by decide) (by decide)
    (by decide) (by decide)

end Gtml
